import Mathlib

/-!
# Greybus firmware protocol driver (`firmware.c`)

A shallow embedding of the Greybus firmware protocol driver (the request
handlers, the identity quirk and the connection setup and teardown), and
theorems about them.

Conventions of the embedding:

* a byte (`u8`) is a `Fin 256`; wider machine integers are `Nat`, reduced
  modulo `2 ^ 32` where the C code narrows them;
* a C `int` return value is an `Int`;
* a message payload is the list of its bytes, `payload_size` its length;
* a handler is a function from the state it can touch (`World`) and the
  operation to `Option Outcome`; `none` stands for a NULL dereference;
* what the kernel decides (the content of the firmware store, whether an
  allocation succeeds) is passed in as an `Env`, what the remote side answers
  to a synchronous exchange as a `Remote`.
-/

namespace Greybus

/-! ## Machine integers and wire encoding -/

/-- One byte. -/
abbrev u8 := Fin 256

/-- Linux `EINVAL`. -/
def EINVAL : Int := 22

/-- Linux `ENOMEM`. -/
def ENOMEM : Int := 12

/-- A non-zero kernel return code: what a failing call returns. -/
abbrev Errno := { e : Int // e ≠ 0 }

/-- Byte `i` of the little-endian representation of `n`. -/
def le_byte (n i : Nat) : u8 := ⟨n / 256 ^ i % 256, Nat.mod_lt _ (by decide)⟩

/-- The four bytes of a `__le32` holding `n` truncated to 32 bits
(`cpu_to_le32`). -/
def cpu_to_le32 (n : Nat) : List u8 :=
  [le_byte (n % 2 ^ 32) 0, le_byte (n % 2 ^ 32) 1, le_byte (n % 2 ^ 32) 2, le_byte (n % 2 ^ 32) 3]

/-- The value of a `__le32` given by its four bytes (`le32_to_cpu`). -/
def le32_to_cpu (b0 b1 b2 b3 : u8) : Nat :=
  b0.val + 256 * b1.val + 65536 * b2.val + 16777216 * b3.val

/-- Overwrite the bytes of `dst` from position `off` on with `src`. -/
def store_bytes (dst : List u8) (off : Nat) (src : List u8) : List u8 :=
  dst.take off ++ src ++ dst.drop (off + src.length)

/-- The C call `memcpy(dst + dst_off, src + src_off, n)`. -/
def memcpy (dst : List u8) (dst_off : Nat) (src : List u8) (src_off n : Nat) : List u8 :=
  store_bytes dst dst_off ((src.drop src_off).take n)

/-! ## Protocol constants and message layouts -/

/-- The constants of `greybus_protocols.h` and `greybus.h` that the driver
names. Their values are not part of the driver, so they are parameters. -/
structure greybus_protocols where
  GB_FIRMWARE_TYPE_FIRMWARE_SIZE : u8
  GB_FIRMWARE_TYPE_GET_FIRMWARE : u8
  GB_FIRMWARE_TYPE_READY_TO_BOOT : u8
  GB_FIRMWARE_TYPE_AP_READY : u8
  GB_FIRMWARE_TYPE_GET_VID_PID : u8
  GB_FIRMWARE_BOOT_STATUS_INVALID : u8
  ES2_DDBL1_MFR_ID : Nat
  ES2_DDBL1_PROD_ID : Nat

/-- Modelled from the spec: the size request payload is `stage: u8` (wire
layout table); the struct declaration is not among the sources. -/
structure struct_gb_firmware_size_request where
  stage : u8

/-- Modelled from the spec: the get-chunk request payload is
`offset: u32, length: u32`, little-endian (wire layout table); the struct
declaration is not among the sources. The fields are kept as wire bytes. -/
structure struct_gb_firmware_get_firmware_request where
  offset : u8 × u8 × u8 × u8
  size : u8 × u8 × u8 × u8

/-- Modelled from the spec: the ready-to-boot payload is `status: u8` (wire
layout table); the struct declaration is not among the sources. -/
structure struct_gb_firmware_ready_to_boot_request where
  status : u8

/-- Modelled from the spec: `sizeof(struct gb_firmware_size_request)`. -/
def sizeof_size_request : Nat := 1

/-- Modelled from the spec: `sizeof(struct gb_firmware_get_firmware_request)`. -/
def sizeof_get_firmware_request : Nat := 8

/-- Modelled from the spec: `sizeof(struct gb_firmware_ready_to_boot_request)`. -/
def sizeof_ready_to_boot_request : Nat := 1

/-- Modelled from the spec: `sizeof(struct gb_firmware_size_response)`, the
response payload being `size: u32`. -/
def sizeof_size_response : Nat := 4

/-- Modelled from the spec: `sizeof(struct gb_firmware_get_firmware_response)`;
the response payload is `data: length bytes` and nothing else, so the struct
is a bare flexible array. -/
def sizeof_get_firmware_response : Nat := 0

/-- View a payload of exactly `sizeof_size_request` bytes as the struct. -/
def as_size_request : List u8 → Option struct_gb_firmware_size_request
  | [stage] => some ⟨stage⟩
  | _ => none

/-- View a payload of exactly `sizeof_get_firmware_request` bytes as the
struct. -/
def as_get_firmware_request : List u8 → Option struct_gb_firmware_get_firmware_request
  | [a0, a1, a2, a3, b0, b1, b2, b3] => some ⟨(a0, a1, a2, a3), (b0, b1, b2, b3)⟩
  | _ => none

/-- View a payload of exactly `sizeof_ready_to_boot_request` bytes as the
struct. -/
def as_ready_to_boot_request : List u8 → Option struct_gb_firmware_ready_to_boot_request
  | [status] => some ⟨status⟩
  | _ => none

/-- Decode a `__le32` field kept as wire bytes. -/
def le32_field (f : u8 × u8 × u8 × u8) : Nat :=
  le32_to_cpu f.1 f.2.1 f.2.2.1 f.2.2.2

/-! ## Data model -/

/-- Linux `struct firmware`: the blob and its `size`. `handle` stands for the
address of the struct, which is what `release_firmware` is given. -/
structure firmware where
  handle : Nat
  data : List u8
deriving DecidableEq, Repr

/-- The field `fw->size`. -/
def firmware.size (fw : firmware) : Nat := fw.data.length

/-- The identity fields of `struct gb_interface` that the driver reads. -/
structure gb_interface where
  ddbl1_manufacturer_id : Nat
  ddbl1_product_id : Nat
  vendor_id : Nat
  product_id : Nat
deriving DecidableEq, Repr

/-- The driver's `struct gb_firmware`: the connection context. The back
pointer `connection` is not modelled; `fw` is `none` for `NULL`. -/
structure gb_firmware where
  fw : Option firmware
deriving DecidableEq, Repr

/-- A call made to the firmware store. -/
inductive StoreEvent where
  | load (handle : Nat)
  | release (handle : Nat)
deriving DecidableEq, Repr

/-- The firmware store as the driver sees it: the handles loaded and not yet
released, and the history of calls, oldest first. -/
structure Store where
  live : List Nat
  trace : List StoreEvent
deriving DecidableEq, Repr

/-- Everything a request handler can touch. -/
structure World where
  firmware : gb_firmware
  intf : gb_interface
  store : Store
deriving DecidableEq, Repr

/-- The driver's view of `struct gb_operation`: the request payload and the
response payload, once allocated. -/
structure gb_operation where
  request : List u8
  response : Option (List u8)
deriving DecidableEq, Repr

/-- What the kernel decides during one request: what the firmware store
answers for a name, and whether a response of a given size can be
allocated. -/
structure Env where
  request_firmware : String → Except Errno firmware
  response_alloc : Nat → Bool

/-- The result of a handler: the return value and the state left behind. -/
structure Outcome where
  ret : Int
  world : World
  op : gb_operation
deriving DecidableEq, Repr

/-! ## Collaborators -/

/-- Modelled from the spec: the store's `release(handle)`. As in Linux,
releasing `NULL` does nothing. -/
def release_firmware (s : Store) : Option firmware → Store
  | none => s
  | some fw => { live := s.live.erase fw.handle, trace := s.trace ++ [StoreEvent.release fw.handle] }

/-- Modelled from the spec: the store's `load(name)`, which either fully
succeeds or fails and leaves no image. Returns the return code, the new value
of the pointer it is given, and the store. -/
def request_firmware (env : Env) (s : Store) (name : String) : Int × Option firmware × Store :=
  match env.request_firmware name with
  | Except.ok fw => (0, some fw, { live := fw.handle :: s.live, trace := s.trace ++ [StoreEvent.load fw.handle] })
  | Except.error e => (e.val, none, s)

/-- Modelled from the spec: the connection's `allocate_response(size)`, which
gives a zeroed buffer of that size or fails. -/
def gb_operation_response_alloc (env : Env) (op : gb_operation) (response_size : Nat) :
    Bool × gb_operation :=
  if env.response_alloc response_size then
    (true, { op with response := some (List.replicate response_size 0) })
  else
    (false, op)

/-! ## Image name -/

/-- The conversion `%0<width>x` of `printf`: lowercase hexadecimal, padded on
the left with zeros up to `width` characters. -/
def fmt_0x (width n : Nat) : List Char :=
  let digits := Nat.toDigits 16 n
  List.replicate (width - digits.length) '0' ++ digits

/-- The C call `snprintf(buf, size, ...)` for an already expanded format: at
most `size - 1` characters are kept. -/
def snprintf (size : Nat) (expanded : List Char) : String :=
  String.mk (expanded.take (size - 1))

/-- The name built in `download_firmware`. -/
def firmware_name (intf : gb_interface) (stage : u8) : String :=
  snprintf 48
    ("ara_".data ++ fmt_0x 8 intf.ddbl1_manufacturer_id ++ "_".data ++
      fmt_0x 8 intf.ddbl1_product_id ++ "_".data ++
      fmt_0x 8 intf.vendor_id ++ "_".data ++
      fmt_0x 8 intf.product_id ++ "_".data ++
      fmt_0x 2 stage.val ++ ".tftf".data)

/-! ## The driver -/

/-- The driver's `free_firmware`. -/
def free_firmware (w : World) : World :=
  { w with store := release_firmware w.store w.firmware.fw, firmware := { fw := none } }

/-- The driver's `download_firmware`. -/
def download_firmware (env : Env) (w : World) (stage : u8) : Int × World :=
  let w1 := if w.firmware.fw.isSome then free_firmware w else w
  let r := request_firmware env w1.store (firmware_name w1.intf stage)
  (r.1, { w1 with firmware := { fw := r.2.1 }, store := r.2.2 })

/-- The driver's `gb_firmware_size_request`. -/
def gb_firmware_size_request (env : Env) (w : World) (op : gb_operation) : Option Outcome :=
  match as_size_request op.request with
  | none => some ⟨-EINVAL, w, op⟩
  | some size_request =>
    let d := download_firmware env w size_request.stage
    if d.1 ≠ 0 then some ⟨d.1, d.2, op⟩
    else
      let a := gb_operation_response_alloc env op sizeof_size_response
      if !a.1 then some ⟨-ENOMEM, free_firmware d.2, op⟩
      else
        match a.2.response, d.2.firmware.fw with
        | some payload, some fw =>
          some ⟨0, d.2, { a.2 with response := some (store_bytes payload 0 (cpu_to_le32 fw.size)) }⟩
        | _, _ => none

/-- The driver's `gb_firmware_get_firmware`. -/
def gb_firmware_get_firmware (env : Env) (w : World) (op : gb_operation) : Option Outcome :=
  match as_get_firmware_request op.request with
  | none => some ⟨-EINVAL, w, op⟩
  | some firmware_request =>
    match w.firmware.fw with
    | none => some ⟨-EINVAL, w, op⟩
    | some fw =>
      let offset := le32_field firmware_request.offset
      let size := le32_field firmware_request.size
      if offset ≥ fw.size ∨ size > fw.size - offset then some ⟨-EINVAL, w, op⟩
      else
        let a := gb_operation_response_alloc env op (sizeof_get_firmware_response + size)
        if !a.1 then some ⟨-ENOMEM, w, op⟩
        else
          match a.2.response with
          | some payload =>
            some ⟨0, w, { a.2 with
              response := some (memcpy payload sizeof_get_firmware_response fw.data offset size) }⟩
          | none => none

/-- The driver's `gb_firmware_ready_to_boot`. -/
def gb_firmware_ready_to_boot (k : greybus_protocols) (w : World) (op : gb_operation) :
    Option Outcome :=
  match as_ready_to_boot_request op.request with
  | none => some ⟨-EINVAL, w, op⟩
  | some rtb_request =>
    let status := rtb_request.status
    if status = k.GB_FIRMWARE_BOOT_STATUS_INVALID then some ⟨-EINVAL, w, op⟩
    else some ⟨0, w, op⟩

/-- The driver's `gb_firmware_request_recv`. A C `switch` takes the first
matching label. -/
def gb_firmware_request_recv (k : greybus_protocols) (env : Env) (type : u8) (w : World)
    (op : gb_operation) : Option Outcome :=
  if type = k.GB_FIRMWARE_TYPE_FIRMWARE_SIZE then gb_firmware_size_request env w op
  else if type = k.GB_FIRMWARE_TYPE_GET_FIRMWARE then gb_firmware_get_firmware env w op
  else if type = k.GB_FIRMWARE_TYPE_READY_TO_BOOT then gb_firmware_ready_to_boot k w op
  else some ⟨-EINVAL, w, op⟩

/-- The driver's `gb_firmware_connection_exit`, as far as the image is
concerned: the held image is released, then the context is freed, so only the
identity record and the store remain. -/
def gb_firmware_connection_exit (w : World) : gb_interface × Store :=
  let w1 := if w.firmware.fw.isSome then free_firmware w else w
  (w1.intf, w1.store)

/-! ## Sequences of requests and the discipline of the store -/

/-- One request as it reaches the dispatcher, with what the kernel decides
while it is handled. -/
structure Dispatch where
  env : Env
  type : u8
  op : gb_operation

/-- Handle a list of requests one after the other, each on the state left by
the one before. -/
def run (k : greybus_protocols) : World → List Dispatch → Option World
  | w, [] => some w
  | w, d :: ds =>
    match gb_firmware_request_recv k d.env d.type w d.op with
    | none => none
    | some out => run k out.world ds

/-- One call to the store, checked against the handles that are live: a load
is accepted when no handle is live, a release when its handle is live. -/
def store_step : Option (List Nat) → StoreEvent → Option (List Nat)
  | none, _ => none
  | some live, StoreEvent.load h => if live = [] then some [h] else none
  | some live, StoreEvent.release h => if h ∈ live then some (live.erase h) else none

/-- The handles live after a history of calls, or `none` when a call was
against the discipline. -/
def replay (live : List Nat) (trace : List StoreEvent) : Option (List Nat) :=
  trace.foldl store_step (some live)

/-- The handles the context holds: the held image's, or none. -/
def held (w : World) : List Nat :=
  match w.firmware.fw with
  | some fw => [fw.handle]
  | none => []

/-- The invariant of the context: the store's live handles are exactly the
held image's, and the history of calls respects the discipline. -/
def Inv (w : World) : Prop :=
  w.store.live = held w ∧ replay [] w.store.trace = some w.store.live

/-- A context as `kzalloc` leaves it, on a store with nothing loaded. -/
def fresh (intf : gb_interface) : World :=
  { firmware := { fw := none }, intf := intf, store := { live := [], trace := [] } }

/-- The calls to the store that releasing the pointer `fw` makes: one release
for an image, none for `NULL`. -/
def release_events : Option firmware → List StoreEvent
  | some fw => [StoreEvent.release fw.handle]
  | none => []

/-! ## Connection setup -/

/-- Modelled from the spec: the get-identifiers response payload is
`vendor_id: u32, product_id: u32`, little-endian (wire layout table), so
`sizeof(struct gb_firmware_get_vid_pid_response)` is 8; the struct declaration
is not among the sources. -/
def sizeof_get_vid_pid_response : Nat := 8

/-- A response buffer of exactly `n` bytes, as a successful synchronous
exchange fills it. -/
abbrev Buffer (n : Nat) := { p : List u8 // p.length = n }

/-- Byte `i` of a get-identifiers response. -/
def response_byte (response : Buffer sizeof_get_vid_pid_response)
    (i : Fin 8) : u8 :=
  response.val.get ⟨i.val, by rw [response.property]; exact i.isLt⟩

/-- The field `response.vendor_id`, bytes 0 to 3, as wire bytes. -/
def response_vendor_id (response : Buffer sizeof_get_vid_pid_response) : u8 × u8 × u8 × u8 :=
  (response_byte response 0, response_byte response 1, response_byte response 2,
    response_byte response 3)

/-- The field `response.product_id`, bytes 4 to 7, as wire bytes. -/
def response_product_id (response : Buffer sizeof_get_vid_pid_response) : u8 × u8 × u8 × u8 :=
  (response_byte response 4, response_byte response 5, response_byte response 6,
    response_byte response 7)

/-- A call of `gb_operation_sync`: the message type, the request payload and
the size of the response asked for. -/
structure Sent where
  type : u8
  request : List u8
  response_size : Nat
deriving DecidableEq, Repr

/-- What the remote side and the transport decide for a synchronous
exchange: an error code, or a response of the size asked for. -/
structure Remote where
  sync : u8 → List u8 → (response_size : Nat) → Except Errno (Buffer response_size)

/-- The value of `connection->private`: `NULL`, or the address of the context
that `gb_firmware_connection_init` allocated. -/
inductive private_ptr where
  | NULL
  | context
deriving DecidableEq, Repr

/-- The driver's view of `struct gb_connection` during setup:
`connection->private`, the context on the heap (`none` before it is allocated
and after it is freed), the identity record `connection->bundle->intf`, and
the calls of `gb_operation_sync` made on the connection, oldest first. -/
structure gb_connection where
  private_ : private_ptr
  context : Option gb_firmware
  intf : gb_interface
  sent : List Sent
deriving DecidableEq, Repr

/-- Modelled from the spec: the connection's synchronous
`send_request(type, payload) -> response | error`. The call is recorded. -/
def gb_operation_sync (r : Remote) (sent : List Sent) (type : u8) (request : List u8)
    (response_size : Nat) : Except Errno (Buffer response_size) × List Sent :=
  (r.sync type request response_size, sent ++ [⟨type, request, response_size⟩])

/-- The driver's `firmware_es2_fixup_vid_pid`. -/
def firmware_es2_fixup_vid_pid (k : greybus_protocols) (r : Remote) (connection : gb_connection) :
    gb_connection :=
  let intf := connection.intf
  if intf.ddbl1_manufacturer_id ≠ k.ES2_DDBL1_MFR_ID ∨
      intf.ddbl1_product_id ≠ k.ES2_DDBL1_PROD_ID ∨
      intf.vendor_id ≠ 0 ∨ intf.product_id ≠ 0 then
    connection
  else
    match gb_operation_sync r connection.sent k.GB_FIRMWARE_TYPE_GET_VID_PID []
        sizeof_get_vid_pid_response with
    | (Except.error _, sent) => { connection with sent := sent }
    | (Except.ok response, sent) =>
      { connection with
        sent := sent
        intf := { intf with
          vendor_id := le32_field (response_vendor_id response)
          product_id := le32_field (response_product_id response) } }

/-- The driver's `gb_firmware_connection_init`; `kzalloc` tells whether the
allocation of the context succeeds. -/
def gb_firmware_connection_init (k : greybus_protocols) (kzalloc : Bool) (r : Remote)
    (connection : gb_connection) : Int × gb_connection :=
  if !kzalloc then (-ENOMEM, connection)
  else
    let c1 := { connection with context := some { fw := none }, private_ := private_ptr.context }
    let c2 := firmware_es2_fixup_vid_pid k r c1
    match gb_operation_sync r c2.sent k.GB_FIRMWARE_TYPE_AP_READY [] 0 with
    | (Except.error e, sent) => (e.val, { c2 with sent := sent, context := none })
    | (Except.ok _, sent) => (0, { c2 with sent := sent })

/-- The state a request handler works on, reached through
`connection->private`; `none` when that pointer is `NULL` or the context is
gone. -/
def handler_world (connection : gb_connection) (store : Store) : Option World :=
  match connection.private_, connection.context with
  | private_ptr.context, some firmware => some ⟨firmware, connection.intf, store⟩
  | _, _ => none

/-- The quirk condition of `firmware_es2_fixup_vid_pid`: an ES2 bridge with
vendor and product ids both zero. -/
def quirk (k : greybus_protocols) (intf : gb_interface) : Prop :=
  intf.ddbl1_manufacturer_id = k.ES2_DDBL1_MFR_ID ∧
  intf.ddbl1_product_id = k.ES2_DDBL1_PROD_ID ∧
  intf.vendor_id = 0 ∧ intf.product_id = 0

instance (k : greybus_protocols) (intf : gb_interface) : Decidable (quirk k intf) := by
  unfold quirk; infer_instance

/-! ## Chunked transfer -/

/-- The get-chunk request for `length` bytes from `offset`, as the remote
side encodes it. -/
def chunk_request (offset length : Nat) : gb_operation :=
  { request := cpu_to_le32 offset ++ cpu_to_le32 length, response := none }

/-- Ask for consecutive chunks of the given lengths, the first at `offset`,
and put the response payloads one after the other; `none` as soon as a
request does not return 0 with a payload. -/
def fetch_chunks (env : Env) : World → Nat → List Nat → Option (List u8)
  | _, _, [] => some []
  | w, offset, n :: ns =>
    match gb_firmware_get_firmware env w (chunk_request offset n) with
    | none => none
    | some out =>
      if out.ret ≠ 0 then none
      else
        match out.op.response with
        | none => none
        | some payload =>
          (fetch_chunks env out.world (offset + n) ns).map (fun rest => payload ++ rest)

/-! ## The image name as the specification words it -/

/-- The lowercase hexadecimal digit of value `d`, as the specification means
it: `0` to `9`, then `a` to `f`. -/
def spec_hex_digit (d : Nat) : Char :=
  if d < 10 then Char.ofNat (48 + d) else Char.ofNat (87 + d)

/-- The rendering of `n` in exactly `digits` lowercase hexadecimal digits,
padded with zeros, most significant digit first, as the specification means
it. -/
def spec_hex : Nat → Nat → List Char
  | 0, _ => []
  | digits + 1, n => spec_hex digits (n / 16) ++ [spec_hex_digit (n % 16)]

/-- The specification's `hex8`. -/
def hex8 (n : Nat) : String := String.mk (spec_hex 8 n)

/-- The specification's `hex2`. -/
def hex2 (n : Nat) : String := String.mk (spec_hex 2 n)

/-- The name as the specification gives it:
`ara_<mfr:8hex>_<bridgeprod:8hex>_<vendor:8hex>_<product:8hex>_<stage:2hex>.tftf`. -/
def spec_name (mfr bridgeprod vendor product stage : Nat) : String :=
  "ara_" ++ hex8 mfr ++ "_" ++ hex8 bridgeprod ++ "_" ++ hex8 vendor ++ "_" ++
    hex8 product ++ "_" ++ hex2 stage ++ ".tftf"

/-- The identity fields are 32-bit values. -/
def is_u32 (intf : gb_interface) : Prop :=
  intf.ddbl1_manufacturer_id < 2 ^ 32 ∧ intf.ddbl1_product_id < 2 ^ 32 ∧
  intf.vendor_id < 2 ^ 32 ∧ intf.product_id < 2 ^ 32

instance (intf : gb_interface) : Decidable (is_u32 intf) := by
  unfold is_u32; infer_instance

/-! ## Concrete data for the examples -/

/-- Values of the constants for the examples, those of the upstream Greybus
headers; the theorems hold for every choice of values. -/
def k0 : greybus_protocols :=
  { GB_FIRMWARE_TYPE_FIRMWARE_SIZE := 0x02
    GB_FIRMWARE_TYPE_GET_FIRMWARE := 0x03
    GB_FIRMWARE_TYPE_READY_TO_BOOT := 0x04
    GB_FIRMWARE_TYPE_AP_READY := 0x05
    GB_FIRMWARE_TYPE_GET_VID_PID := 0x06
    GB_FIRMWARE_BOOT_STATUS_INVALID := 0x00
    ES2_DDBL1_MFR_ID := 0x00000126
    ES2_DDBL1_PROD_ID := 0x00001000 }

/-- The ten-byte image `[0..9]` of the end-to-end scenario. -/
def img10 : firmware := { handle := 1, data := [0, 1, 2, 3, 4, 5, 6, 7, 8, 9] }

/-- A second image, to tell a replacement from the original. -/
def img3 : firmware := { handle := 2, data := [7, 7, 7] }

/-- The identity record of the end-to-end scenario. -/
def intf0 : gb_interface :=
  { ddbl1_manufacturer_id := 0x11111111, ddbl1_product_id := 0x22222222,
    vendor_id := 0x33333333, product_id := 0x44444444 }

/-- A kernel whose store knows the scenario's name only and whose allocations
succeed. -/
def env_ok : Env :=
  { request_firmware := fun name =>
      if name = "ara_11111111_22222222_33333333_44444444_01.tftf" then Except.ok img10
      else Except.error ⟨-2, by decide⟩
    response_alloc := fun _ => true }

/-- The same kernel with every allocation failing. -/
def env_nomem : Env := { env_ok with response_alloc := fun _ => false }

/-- A context without an image. -/
def w_none : World := fresh intf0

/-- A context holding the ten-byte image. -/
def w_img10 : World :=
  { firmware := { fw := some img10 }, intf := intf0,
    store := { live := [1], trace := [StoreEvent.load 1] } }

/-- A context holding the three-byte image. -/
def w_img3 : World :=
  { firmware := { fw := some img3 }, intf := intf0,
    store := { live := [2], trace := [StoreEvent.load 2] } }

/-- The identity record of an ES2 bridge whose ids were not known at
hotplug. -/
def intf_es2 : gb_interface :=
  { ddbl1_manufacturer_id := 0x00000126, ddbl1_product_id := 0x00001000,
    vendor_id := 0, product_id := 0 }

/-- A remote side that answers every exchange; the bytes of a response are
`0x33` at positions 0 to 3 and `0x44` after. -/
def remote_ok : Remote :=
  { sync := fun _ _ n =>
      Except.ok ⟨(List.range n).map (fun i => if i < 4 then 0x33 else 0x44), by simp⟩ }

/-- A remote side on which every exchange fails. -/
def remote_down : Remote := { sync := fun _ _ _ => Except.error ⟨-110, by decide⟩ }

/-- A remote side that answers the exchanges without a response payload and
fails those with one, so the identifier query fails and the handshake
succeeds. -/
def remote_no_ident : Remote :=
  { sync := fun t q n => if n = 0 then remote_ok.sync t q n else remote_down.sync t q n }

/-- A connection before setup, on the scenario's identity record. -/
def conn0 : gb_connection :=
  { private_ := private_ptr.NULL, context := none, intf := intf0, sent := [] }

/-- A connection before setup, on an ES2 bridge with unknown ids. -/
def conn_es2 : gb_connection := { conn0 with intf := intf_es2 }

/-! ## Lemmas on the encoding -/

theorem as_size_request_eq_none (p : List u8) :
    as_size_request p = none ↔ p.length ≠ sizeof_size_request := by
  rcases p with _ | ⟨a, _ | ⟨b, t⟩⟩ <;> simp [as_size_request, sizeof_size_request]

theorem as_ready_to_boot_request_eq_none (p : List u8) :
    as_ready_to_boot_request p = none ↔ p.length ≠ sizeof_ready_to_boot_request := by
  rcases p with _ | ⟨a, _ | ⟨b, t⟩⟩ <;>
    simp [as_ready_to_boot_request, sizeof_ready_to_boot_request]

theorem as_get_firmware_request_eq_none (p : List u8) :
    as_get_firmware_request p = none ↔ p.length ≠ sizeof_get_firmware_request := by
  rcases p with _ | ⟨a0, _ | ⟨a1, _ | ⟨a2, _ | ⟨a3, _ | ⟨b0, _ | ⟨b1, _ | ⟨b2, _ | ⟨b3, _ | ⟨c, t⟩⟩⟩⟩⟩⟩⟩⟩⟩ <;>
    simp [as_get_firmware_request, sizeof_get_firmware_request]

theorem le32_to_cpu_lt (b0 b1 b2 b3 : u8) : le32_to_cpu b0 b1 b2 b3 < 2 ^ 32 := by
  have h0 := b0.isLt
  have h1 := b1.isLt
  have h2 := b2.isLt
  have h3 := b3.isLt
  unfold le32_to_cpu
  omega

theorem le32_to_cpu_cpu_to_le32 (n : Nat) :
    ∃ b0 b1 b2 b3, cpu_to_le32 n = [b0, b1, b2, b3] ∧ le32_to_cpu b0 b1 b2 b3 = n % 2 ^ 32 := by
  refine ⟨_, _, _, _, rfl, ?_⟩
  have h : n % 2 ^ 32 < 2 ^ 32 := Nat.mod_lt _ (by decide)
  simp only [le32_to_cpu, le_byte]
  norm_num
  omega

/-! ## Get-chunk requests -/

/-- An in-range get-chunk request is answered with the requested slice. -/
theorem get_firmware_in_range (env : Env) (w : World) (fw : firmware)
    (a0 a1 a2 a3 b0 b1 b2 b3 : u8) (resp : Option (List u8))
    (hheld : w.firmware.fw = some fw)
    (hoff : le32_to_cpu a0 a1 a2 a3 < fw.data.length)
    (hlen : le32_to_cpu b0 b1 b2 b3 ≤ fw.data.length - le32_to_cpu a0 a1 a2 a3)
    (halloc : env.response_alloc
      (sizeof_get_firmware_response + le32_to_cpu b0 b1 b2 b3) = true) :
    gb_firmware_get_firmware env w ⟨[a0, a1, a2, a3, b0, b1, b2, b3], resp⟩ =
      some ⟨0, w, ⟨[a0, a1, a2, a3, b0, b1, b2, b3],
        some ((fw.data.drop (le32_to_cpu a0 a1 a2 a3)).take (le32_to_cpu b0 b1 b2 b3))⟩⟩ := by
  have hl : ((fw.data.drop (le32_to_cpu a0 a1 a2 a3)).take (le32_to_cpu b0 b1 b2 b3)).length
      = le32_to_cpu b0 b1 b2 b3 := by
    rw [List.length_take, List.length_drop]; omega
  have h1 : ¬ (fw.data.length ≤ le32_to_cpu a0 a1 a2 a3 ∨
      fw.data.length - le32_to_cpu a0 a1 a2 a3 < le32_to_cpu b0 b1 b2 b3) := by omega
  simp only [gb_firmware_get_firmware, as_get_firmware_request, hheld, le32_field,
    firmware.size, ge_iff_le, gt_iff_lt, h1, if_false, gb_operation_response_alloc, halloc,
    if_true, Bool.not_true, memcpy, store_bytes, hl]
  simp [sizeof_get_firmware_response]

/-- The slice `(data.drop off).take len` has the bytes of `data` at positions
`off`, ..., `off + len - 1`. -/
theorem slice_getElem? (data : List u8) (off len i : Nat) (hi : i < len) :
    ((data.drop off).take len)[i]? = data[off + i]? := by
  rw [List.getElem?_take_of_lt hi, List.getElem?_drop]

/-- An out-of-range get-chunk request is refused and nothing changes. -/
theorem get_firmware_out_of_range (env : Env) (w : World) (fw : firmware)
    (a0 a1 a2 a3 b0 b1 b2 b3 : u8) (resp : Option (List u8))
    (hheld : w.firmware.fw = some fw)
    (hbad : fw.data.length ≤ le32_to_cpu a0 a1 a2 a3 ∨
      fw.data.length - le32_to_cpu a0 a1 a2 a3 < le32_to_cpu b0 b1 b2 b3) :
    gb_firmware_get_firmware env w ⟨[a0, a1, a2, a3, b0, b1, b2, b3], resp⟩ =
      some ⟨-EINVAL, w, ⟨[a0, a1, a2, a3, b0, b1, b2, b3], resp⟩⟩ := by
  simp only [gb_firmware_get_firmware, as_get_firmware_request, hheld, le32_field,
    firmware.size, ge_iff_le, gt_iff_lt, hbad, if_true]

/-- C1. Get-chunk success: for a held image of length `L` and an 8-byte
get-chunk request whose little-endian offset and length satisfy
`offset < L` and `length ≤ L - offset`, if the response can be allocated,
`gb_firmware_get_firmware` returns 0, leaves the context as it was, and
the response payload has exactly `length` bytes, byte `i` being byte
`offset + i` of the image. -/
theorem C1_get_firmware_success (env : Env) (w : World) (fw : firmware)
    (a0 a1 a2 a3 b0 b1 b2 b3 : u8) (resp : Option (List u8))
    (hheld : w.firmware.fw = some fw)
    (hoff : le32_to_cpu a0 a1 a2 a3 < fw.size)
    (hlen : le32_to_cpu b0 b1 b2 b3 ≤ fw.size - le32_to_cpu a0 a1 a2 a3)
    (halloc : env.response_alloc
      (sizeof_get_firmware_response + le32_to_cpu b0 b1 b2 b3) = true) :
    ∃ payload : List u8,
      gb_firmware_get_firmware env w ⟨[a0, a1, a2, a3, b0, b1, b2, b3], resp⟩ =
        some ⟨0, w, ⟨[a0, a1, a2, a3, b0, b1, b2, b3], some payload⟩⟩ ∧
      payload.length = le32_to_cpu b0 b1 b2 b3 ∧
      (∀ i, i < le32_to_cpu b0 b1 b2 b3 →
        payload[i]? = fw.data[le32_to_cpu a0 a1 a2 a3 + i]? ∧ (payload[i]?).isSome) ∧
      (le32_to_cpu b0 b1 b2 b3 = 0 → payload = []) := by
  unfold firmware.size at hoff hlen
  refine ⟨_, get_firmware_in_range env w fw a0 a1 a2 a3 b0 b1 b2 b3 resp hheld hoff hlen halloc,
    ?_, ?_, ?_⟩
  · rw [List.length_take, List.length_drop]; omega
  · intro i hi
    refine ⟨slice_getElem? _ _ _ _ hi, ?_⟩
    rw [slice_getElem?  _ _ _ _ hi]
    have : le32_to_cpu a0 a1 a2 a3 + i < fw.data.length := by omega
    simp [this]
  · intro h0
    simp [h0]

/-- C1, on the scenario: image `[0..9]`, offset 3, length 4 gives
`[3, 4, 5, 6]`. -/
theorem C1_get_firmware_success_witness :
    (∃ payload : List u8,
      gb_firmware_get_firmware env_ok w_img10 ⟨[3, 0, 0, 0, 4, 0, 0, 0], none⟩ =
        some ⟨0, w_img10, ⟨[3, 0, 0, 0, 4, 0, 0, 0], some payload⟩⟩ ∧
      payload.length = le32_to_cpu 4 0 0 0 ∧
      (∀ i, i < le32_to_cpu 4 0 0 0 →
        payload[i]? = img10.data[le32_to_cpu 3 0 0 0 + i]? ∧ (payload[i]?).isSome) ∧
      (le32_to_cpu 4 0 0 0 = 0 → payload = [])) ∧
    gb_firmware_get_firmware env_ok w_img10 ⟨[3, 0, 0, 0, 4, 0, 0, 0], none⟩ =
      some ⟨0, w_img10, ⟨[3, 0, 0, 0, 4, 0, 0, 0], some [3, 4, 5, 6]⟩⟩ :=
  ⟨C1_get_firmware_success env_ok w_img10 img10 3 0 0 0 4 0 0 0 none rfl (by decide) (by decide)
    rfl, by decide⟩

/-- C2. Get-chunk rejection: for a held image of length `L` and an 8-byte
get-chunk request with `offset ≥ L`, or `offset < L` and
`length > L - offset`, `gb_firmware_get_firmware` returns `-EINVAL`,
allocates no response and leaves the context, the held image and the store
as they were. The same holds whenever the exact sum `offset + length`
exceeds `L`, also when that sum does not fit 32 bits. -/
theorem C2_get_firmware_rejects (env : Env) (w : World) (fw : firmware)
    (a0 a1 a2 a3 b0 b1 b2 b3 : u8) (resp : Option (List u8))
    (hheld : w.firmware.fw = some fw) :
    ((fw.size ≤ le32_to_cpu a0 a1 a2 a3 ∨
        (le32_to_cpu a0 a1 a2 a3 < fw.size ∧
          fw.size - le32_to_cpu a0 a1 a2 a3 < le32_to_cpu b0 b1 b2 b3)) →
      gb_firmware_get_firmware env w ⟨[a0, a1, a2, a3, b0, b1, b2, b3], resp⟩ =
        some ⟨-EINVAL, w, ⟨[a0, a1, a2, a3, b0, b1, b2, b3], resp⟩⟩) ∧
    (fw.size < le32_to_cpu a0 a1 a2 a3 + le32_to_cpu b0 b1 b2 b3 →
      gb_firmware_get_firmware env w ⟨[a0, a1, a2, a3, b0, b1, b2, b3], resp⟩ =
        some ⟨-EINVAL, w, ⟨[a0, a1, a2, a3, b0, b1, b2, b3], resp⟩⟩) := by
  unfold firmware.size
  constructor
  · intro h
    exact get_firmware_out_of_range env w fw a0 a1 a2 a3 b0 b1 b2 b3 resp hheld (by omega)
  · intro h
    exact get_firmware_out_of_range env w fw a0 a1 a2 a3 b0 b1 b2 b3 resp hheld (by omega)

/-- C2, on the scenario: `L = 10`, offset 8, length 5 is refused; and so is
offset `2 ^ 32 - 1`, length 2, whose 32-bit sum would be 1. -/
theorem C2_get_firmware_rejects_witness :
    gb_firmware_get_firmware env_ok w_img10 ⟨[8, 0, 0, 0, 5, 0, 0, 0], none⟩ =
        some ⟨-EINVAL, w_img10, ⟨[8, 0, 0, 0, 5, 0, 0, 0], none⟩⟩ ∧
    gb_firmware_get_firmware env_ok w_img10 ⟨[255, 255, 255, 255, 2, 0, 0, 0], none⟩ =
        some ⟨-EINVAL, w_img10, ⟨[255, 255, 255, 255, 2, 0, 0, 0], none⟩⟩ :=
  ⟨(C2_get_firmware_rejects env_ok w_img10 img10 8 0 0 0 5 0 0 0 none rfl).1
      (Or.inr (by decide)),
    (C2_get_firmware_rejects env_ok w_img10 img10 255 255 255 255 2 0 0 0 none rfl).2
      (by decide)⟩

/-- C3, as stated, fails: on the ten-byte image the request with offset 10
and length 0 has `offset + length ≤ L` and a kernel that can
allocate, yet it is refused with `-EINVAL` and gets no response. -/
theorem C3_counterexample :
    w_img10.firmware.fw = some img10 ∧
    le32_to_cpu 10 0 0 0 + le32_to_cpu 0 0 0 0 ≤ img10.size ∧
    env_ok.response_alloc (sizeof_get_firmware_response + le32_to_cpu 0 0 0 0) = true ∧
    gb_firmware_get_firmware env_ok w_img10 ⟨[10, 0, 0, 0, 0, 0, 0, 0], none⟩ =
      some ⟨-EINVAL, w_img10, ⟨[10, 0, 0, 0, 0, 0, 0, 0], none⟩⟩ := by
  decide

/-- C3, amended. Get-chunk acceptance: for a held image of length `L`, an
8-byte get-chunk request with `offset < L` and `offset + length ≤ L`
(the exact sum) succeeds when the response can be allocated, and returns
exactly `length` bytes equal to `image[offset:offset+length]`. -/
theorem C3_get_firmware_accepts (env : Env) (w : World) (fw : firmware)
    (a0 a1 a2 a3 b0 b1 b2 b3 : u8) (resp : Option (List u8))
    (hheld : w.firmware.fw = some fw)
    (hoff : le32_to_cpu a0 a1 a2 a3 < fw.size)
    (hsum : le32_to_cpu a0 a1 a2 a3 + le32_to_cpu b0 b1 b2 b3 ≤ fw.size)
    (halloc : env.response_alloc
      (sizeof_get_firmware_response + le32_to_cpu b0 b1 b2 b3) = true) :
    gb_firmware_get_firmware env w ⟨[a0, a1, a2, a3, b0, b1, b2, b3], resp⟩ =
        some ⟨0, w, ⟨[a0, a1, a2, a3, b0, b1, b2, b3],
          some ((fw.data.drop (le32_to_cpu a0 a1 a2 a3)).take (le32_to_cpu b0 b1 b2 b3))⟩⟩ ∧
    ((fw.data.drop (le32_to_cpu a0 a1 a2 a3)).take (le32_to_cpu b0 b1 b2 b3)).length =
      le32_to_cpu b0 b1 b2 b3 := by
  unfold firmware.size at hoff hsum
  refine ⟨get_firmware_in_range env w fw a0 a1 a2 a3 b0 b1 b2 b3 resp hheld hoff (by omega)
    halloc, ?_⟩
  rw [List.length_take, List.length_drop]; omega

/-- C3 amended, on the scenario: offset 6, length 4 reaches the end of the
ten-byte image exactly. -/
theorem C3_get_firmware_accepts_witness :
    gb_firmware_get_firmware env_ok w_img10 ⟨[6, 0, 0, 0, 4, 0, 0, 0], none⟩ =
        some ⟨0, w_img10, ⟨[6, 0, 0, 0, 4, 0, 0, 0], some [6, 7, 8, 9]⟩⟩ ∧
    ([6, 7, 8, 9] : List u8).length = 4 :=
  C3_get_firmware_accepts env_ok w_img10 img10 6 0 0 0 4 0 0 0 none rfl (by decide) (by decide) rfl

/-! ## Size requests -/

theorem release_firmware_some (s : Store) (fw : firmware) :
    release_firmware s (some fw) =
      { live := s.live.erase fw.handle, trace := s.trace ++ [StoreEvent.release fw.handle] } :=
  rfl

theorem release_firmware_trace (s : Store) (fw : Option firmware) :
    (release_firmware s fw).trace = s.trace ++ release_events fw := by
  cases fw <;> simp [release_firmware, release_events]

/-- The first step of `download_firmware`: whatever was held is released and
the context holds nothing. -/
theorem download_firmware_drop (w : World) :
    (if w.firmware.fw.isSome then free_firmware w else w) =
      { firmware := { fw := none }, intf := w.intf,
        store := release_firmware w.store w.firmware.fw } := by
  rcases w with ⟨⟨_ | fw⟩, intf, store⟩ <;> simp [free_firmware, release_firmware]

/-- What `download_firmware` does when the store has the image. -/
theorem download_firmware_ok (env : Env) (w : World) (stage : u8) (fw : firmware)
    (hload : env.request_firmware (firmware_name w.intf stage) = Except.ok fw) :
    download_firmware env w stage =
      (0, { firmware := { fw := some fw }, intf := w.intf,
            store := { live := fw.handle :: (release_firmware w.store w.firmware.fw).live,
                       trace := w.store.trace ++ release_events w.firmware.fw ++
                         [StoreEvent.load fw.handle] } }) := by
  simp only [download_firmware, download_firmware_drop, request_firmware, hload,
    release_firmware_trace]

/-- What `download_firmware` does when the store fails. -/
theorem download_firmware_error (env : Env) (w : World) (stage : u8) (e : Errno)
    (hload : env.request_firmware (firmware_name w.intf stage) = Except.error e) :
    download_firmware env w stage =
      (e.val, { firmware := { fw := none }, intf := w.intf,
                store := release_firmware w.store w.firmware.fw }) := by
  simp only [download_firmware, download_firmware_drop, request_firmware, hload]

/-- C4. Size request success: for every context, identity record and stage
byte, if the 1-byte size request arrives, the store has an image `fw` under
the name derived from the current identity record and the stage, and the
response can be allocated, then `gb_firmware_size_request` returns 0, the
context holds exactly `fw`, the identity record is unchanged, the store has
seen the release of the old image (if one was held) followed by the load, and
the response payload is the 4-byte little-endian encoding of
`L mod 2 ^ 32`, which decodes to `L` when `L < 2 ^ 32`. -/
theorem C4_size_request_success (env : Env) (w : World) (stage : u8)
    (resp : Option (List u8)) (fw : firmware)
    (hload : env.request_firmware (firmware_name w.intf stage) = Except.ok fw)
    (halloc : env.response_alloc sizeof_size_response = true) :
    ∃ out : Outcome,
      gb_firmware_size_request env w ⟨[stage], resp⟩ = some out ∧
      out.ret = 0 ∧
      out.world.firmware.fw = some fw ∧
      out.world.intf = w.intf ∧
      out.world.store.trace =
        w.store.trace ++ release_events w.firmware.fw ++ [StoreEvent.load fw.handle] ∧
      out.op.request = [stage] ∧
      ∃ b0 b1 b2 b3 : u8,
        out.op.response = some [b0, b1, b2, b3] ∧
        le32_to_cpu b0 b1 b2 b3 = fw.size % 2 ^ 32 ∧
        (fw.size < 2 ^ 32 → le32_to_cpu b0 b1 b2 b3 = fw.size) := by
  obtain ⟨b0, b1, b2, b3, hb, hdec⟩ := le32_to_cpu_cpu_to_le32 fw.size
  refine ⟨⟨0, (download_firmware env w stage).2, ⟨[stage], some (cpu_to_le32 fw.size)⟩⟩,
    ?_, rfl, ?_, ?_, ?_, rfl, b0, b1, b2, b3, ?_, hdec, ?_⟩
  · simp only [gb_firmware_size_request, as_size_request,
      download_firmware_ok env w stage fw hload, gb_operation_response_alloc, halloc]
    simp [store_bytes, sizeof_size_response, cpu_to_le32]
  · rw [download_firmware_ok env w stage fw hload]
  · rw [download_firmware_ok env w stage fw hload]
  · rw [download_firmware_ok env w stage fw hload]
  · simp only [hb]
  · intro hsmall
    rw [hdec, Nat.mod_eq_of_lt hsmall]

/-- C4, on the scenario: the store returns the ten-byte image for the derived
name and the size request reports size 10. -/
theorem C4_size_request_success_witness :
    (∃ out : Outcome,
      gb_firmware_size_request env_ok w_none ⟨[1], none⟩ = some out ∧
      out.ret = 0 ∧
      out.world.firmware.fw = some img10 ∧
      out.world.intf = w_none.intf ∧
      out.world.store.trace =
        w_none.store.trace ++ release_events w_none.firmware.fw ++
          [StoreEvent.load img10.handle] ∧
      out.op.request = [1] ∧
      ∃ b0 b1 b2 b3 : u8,
        out.op.response = some [b0, b1, b2, b3] ∧
        le32_to_cpu b0 b1 b2 b3 = img10.size % 2 ^ 32 ∧
        (img10.size < 2 ^ 32 → le32_to_cpu b0 b1 b2 b3 = img10.size)) ∧
    gb_firmware_size_request env_ok w_none ⟨[1], none⟩ =
      some ⟨0, w_img10, ⟨[1], some [10, 0, 0, 0]⟩⟩ :=
  ⟨C4_size_request_success env_ok w_none 1 none img10 rfl rfl, by decide⟩

/-! ## The discipline of the store -/

theorem replay_snoc (live : List Nat) (trace : List StoreEvent) (e : StoreEvent) :
    replay live (trace ++ [e]) = store_step (replay live trace) e := by
  simp [replay, List.foldl_append]

/-- Under the invariant, releasing what is held empties the store, within the
discipline. -/
theorem Inv_release (w : World) (h : Inv w) :
    (release_firmware w.store w.firmware.fw).live = [] ∧
    replay [] (release_firmware w.store w.firmware.fw).trace = some [] := by
  rcases w with ⟨⟨_ | fw⟩, intf, ⟨live, trace⟩⟩
  · obtain ⟨h1, h2⟩ := h
    simp only [held] at h1
    simp only [] at h1 h2
    subst h1
    exact ⟨rfl, h2⟩
  · obtain ⟨h1, h2⟩ := h
    simp only [held] at h1
    simp only [] at h1 h2
    subst h1
    simp [release_firmware, replay_snoc, h2, store_step]

/-- A get-chunk request always returns and never changes the state. -/
theorem get_firmware_world (env : Env) (w : World) (op : gb_operation) :
    ∃ out, gb_firmware_get_firmware env w op = some out ∧ out.world = w := by
  unfold gb_firmware_get_firmware
  cases as_get_firmware_request op.request with
  | none => exact ⟨_, rfl, rfl⟩
  | some req =>
    cases w.firmware.fw with
    | none => exact ⟨_, rfl, rfl⟩
    | some fw =>
      simp only []
      split
      · exact ⟨_, rfl, rfl⟩
      · unfold gb_operation_response_alloc
        cases env.response_alloc (sizeof_get_firmware_response + le32_field req.size) with
        | false => exact ⟨_, rfl, rfl⟩
        | true => exact ⟨_, rfl, rfl⟩

/-- A ready-to-boot report always returns and never changes the state nor the
operation. -/
theorem ready_to_boot_world (k : greybus_protocols) (w : World) (op : gb_operation) :
    ∃ out, gb_firmware_ready_to_boot k w op = some out ∧ out.world = w ∧ out.op = op := by
  unfold gb_firmware_ready_to_boot
  cases as_ready_to_boot_request op.request with
  | none => exact ⟨_, rfl, rfl, rfl⟩
  | some req =>
    simp only []
    split
    · exact ⟨_, rfl, rfl, rfl⟩
    · exact ⟨_, rfl, rfl, rfl⟩

/-- A size request always returns and keeps the invariant. -/
theorem size_request_Inv (env : Env) (w : World) (op : gb_operation) (h : Inv w) :
    ∃ out, gb_firmware_size_request env w op = some out ∧ Inv out.world := by
  obtain ⟨hl, ht⟩ := Inv_release w h
  rw [release_firmware_trace] at ht
  unfold gb_firmware_size_request
  cases as_size_request op.request with
  | none => exact ⟨_, rfl, h⟩
  | some req =>
    simp only []
    cases hload : env.request_firmware (firmware_name w.intf req.stage) with
    | error e =>
      have he : e.val ≠ 0 := e.property
      rw [download_firmware_error env w req.stage e hload]
      simp only [he, ne_eq, not_false_eq_true, if_true]
      refine ⟨_, rfl, ?_⟩
      simp only [Inv, held, hl, release_firmware_trace, ht, and_self]
    | ok fw =>
      rw [download_firmware_ok env w req.stage fw hload]
      unfold gb_operation_response_alloc
      cases env.response_alloc sizeof_size_response with
      | false =>
        refine ⟨_, rfl, ?_, ?_⟩
        · simp only [free_firmware, release_firmware_some, held, List.erase_cons_head, hl,
            Bool.not_false, if_true]
        · simp only [free_firmware, release_firmware_some, Bool.not_false, if_true]
          rw [replay_snoc, replay_snoc, ht]
          simp [store_step, hl]
      | true =>
        refine ⟨_, rfl, ?_, ?_⟩
        · simp only [held, hl]
        · simp only []
          rw [replay_snoc, ht]
          simp [store_step, hl]

/-- The dispatcher always returns and keeps the invariant. -/
theorem request_recv_Inv (k : greybus_protocols) (env : Env) (type : u8) (w : World)
    (op : gb_operation) (h : Inv w) :
    ∃ out, gb_firmware_request_recv k env type w op = some out ∧ Inv out.world := by
  unfold gb_firmware_request_recv
  split
  · exact size_request_Inv env w op h
  · split
    · obtain ⟨out, ho, hw⟩ := get_firmware_world env w op
      exact ⟨out, ho, hw ▸ h⟩
    · split
      · obtain ⟨out, ho, hw, _⟩ := ready_to_boot_world k w op
        exact ⟨out, ho, hw ▸ h⟩
      · exact ⟨_, rfl, h⟩

/-- Every sequence of requests is handled to its end and keeps the
invariant. -/
theorem run_Inv (k : greybus_protocols) (ds : List Dispatch) :
    ∀ w, Inv w → ∃ w1, run k w ds = some w1 ∧ Inv w1 := by
  induction ds with
  | nil => intro w h; exact ⟨w, rfl, h⟩
  | cons d ds ih =>
    intro w h
    obtain ⟨out, ho, hi⟩ := request_recv_Inv k d.env d.type w d.op h
    obtain ⟨w1, hr, hi1⟩ := ih out.world hi
    exact ⟨w1, by simp only [run, ho, hr], hi1⟩

/-- C5. Single live image: starting from a fresh context, every finite
sequence of dispatched requests (of any type, with any payload, the store and
the allocator answering in any way) is handled to its end, and afterwards the
live handles are exactly the held image's handle, or none when no image is
held (so at most one); the history of store calls respects the discipline
(no release of a handle that is not live, no load while a handle is live);
and `gb_firmware_connection_exit` leaves the identity record alone and
hands back the store of that moment with the held image released: the history
is the one before followed by exactly one release of the held image's handle
(by nothing when no image is held), that handle is taken out of the live
handles, so that no handle is live, the history still respecting the
discipline. -/
theorem C5_single_live_image (k : greybus_protocols) (intf : gb_interface)
    (ds : List Dispatch) :
    ∃ w : World,
      run k (fresh intf) ds = some w ∧
      w.store.live = held w ∧
      w.store.live.length ≤ 1 ∧
      replay [] w.store.trace = some w.store.live ∧
      (gb_firmware_connection_exit w).2.live = [] ∧
      replay [] (gb_firmware_connection_exit w).2.trace = some [] ∧
      (gb_firmware_connection_exit w).1 = w.intf ∧
      (gb_firmware_connection_exit w).2 = release_firmware w.store w.firmware.fw ∧
      (gb_firmware_connection_exit w).2.trace =
        w.store.trace ++ release_events w.firmware.fw ∧
      (∀ fw : firmware, w.firmware.fw = some fw →
        (gb_firmware_connection_exit w).2.trace =
          w.store.trace ++ [StoreEvent.release fw.handle] ∧
        (gb_firmware_connection_exit w).2.live = w.store.live.erase fw.handle ∧
        w.store.live = [fw.handle]) ∧
      (w.firmware.fw = none → (gb_firmware_connection_exit w).2 = w.store) := by
  have h0 : Inv (fresh intf) := by simp [Inv, fresh, held, replay]
  obtain ⟨w, hr, hi⟩ := run_Inv k ds (fresh intf) h0
  obtain ⟨hl, ht⟩ := Inv_release w hi
  have hexit : gb_firmware_connection_exit w =
      (w.intf, release_firmware w.store w.firmware.fw) := by
    simp only [gb_firmware_connection_exit, download_firmware_drop]
  refine ⟨w, hr, hi.1, ?_, hi.2, ?_, ?_, ?_, ?_, ?_, ?_, ?_⟩
  · rw [hi.1]; unfold held; split <;> simp
  · rw [hexit]; exact hl
  · rw [hexit]; exact ht
  · rw [hexit]
  · rw [hexit]
  · rw [hexit]; exact release_firmware_trace _ _
  · intro fw hfw
    rw [hexit, hfw]
    refine ⟨rfl, rfl, ?_⟩
    rw [hi.1]
    simp only [held, hfw]
  · intro hnone
    rw [hexit, hnone]
    rfl

/-- The discipline is not void: a second release of the same handle, and a
load while a handle is live, are both against it. -/
theorem replay_rejects :
    replay [] [StoreEvent.load 1, StoreEvent.release 1, StoreEvent.release 1] = none ∧
    replay [] [StoreEvent.load 1, StoreEvent.load 2] = none ∧
    replay [] [StoreEvent.load 1, StoreEvent.release 1, StoreEvent.load 2] = some [2] := by
  decide

/-! ## Requests without an image -/

/-- Without an image every get-chunk request is refused with `-EINVAL` and
nothing changes. -/
theorem get_firmware_no_image (env : Env) (w : World) (op : gb_operation)
    (hnone : w.firmware.fw = none) :
    gb_firmware_get_firmware env w op = some ⟨-EINVAL, w, op⟩ := by
  unfold gb_firmware_get_firmware
  cases as_get_firmware_request op.request with
  | none => rfl
  | some req => simp only [hnone]

/-- C6, as stated, fails: without an image a get-chunk request is refused
with `-EINVAL`, which is the very value an out-of-range request on a held
image is refused with; the two errors are not of different kinds. -/
theorem C6_counterexample :
    w_none.firmware.fw = none ∧
    gb_firmware_get_firmware env_ok w_none ⟨[3, 0, 0, 0, 4, 0, 0, 0], none⟩ =
      some ⟨-EINVAL, w_none, ⟨[3, 0, 0, 0, 4, 0, 0, 0], none⟩⟩ ∧
    gb_firmware_get_firmware env_ok w_img10 ⟨[8, 0, 0, 0, 5, 0, 0, 0], none⟩ =
      some ⟨-EINVAL, w_img10, ⟨[8, 0, 0, 0, 5, 0, 0, 0], none⟩⟩ ∧
    (gb_firmware_get_firmware env_ok w_none ⟨[3, 0, 0, 0, 4, 0, 0, 0], none⟩).map Outcome.ret =
      (gb_firmware_get_firmware env_ok w_img10 ⟨[8, 0, 0, 0, 5, 0, 0, 0], none⟩).map
        Outcome.ret := by
  decide

/-- C6, amended. No image, chunk request: for every context that holds no
image and every get-chunk request, whatever its payload,
`gb_firmware_get_firmware` fails with `-EINVAL`, allocates no response
and leaves the context without an image and the store untouched; the value
returned is the same as for any out-of-range request on a held image. -/
theorem C6_get_firmware_no_image (env : Env) (w : World) (op : gb_operation)
    (hnone : w.firmware.fw = none) :
    gb_firmware_get_firmware env w op = some ⟨-EINVAL, w, op⟩ ∧
    w.firmware.fw = none ∧
    ∀ (env1 : Env) (w1 : World) (fw1 : firmware) (a0 a1 a2 a3 b0 b1 b2 b3 : u8)
      (resp : Option (List u8)),
      w1.firmware.fw = some fw1 →
      (fw1.size ≤ le32_to_cpu a0 a1 a2 a3 ∨
        fw1.size - le32_to_cpu a0 a1 a2 a3 < le32_to_cpu b0 b1 b2 b3) →
      (gb_firmware_get_firmware env1 w1 ⟨[a0, a1, a2, a3, b0, b1, b2, b3], resp⟩).map
          Outcome.ret =
        (gb_firmware_get_firmware env w op).map Outcome.ret := by
  refine ⟨get_firmware_no_image env w op hnone, hnone, ?_⟩
  intro env1 w1 fw1 a0 a1 a2 a3 b0 b1 b2 b3 resp hheld hbad
  rw [get_firmware_no_image env w op hnone,
    get_firmware_out_of_range env1 w1 fw1 a0 a1 a2 a3 b0 b1 b2 b3 resp hheld hbad]
  rfl

/-- C6 amended, on the scenario: before any size request the chunk request
(offset 3, length 4) is refused with `-EINVAL`. -/
theorem C6_get_firmware_no_image_witness :
    gb_firmware_get_firmware env_ok w_none ⟨[3, 0, 0, 0, 4, 0, 0, 0], none⟩ =
      some ⟨-EINVAL, w_none, ⟨[3, 0, 0, 0, 4, 0, 0, 0], none⟩⟩ :=
  (C6_get_firmware_no_image env_ok w_none ⟨[3, 0, 0, 0, 4, 0, 0, 0], none⟩ rfl).1

/-! ## Failing size requests -/

/-- C7. Size request, load failure: for every context and every 1-byte size
request, if the store fails with the code `e` for the derived name, then
`gb_firmware_size_request` returns exactly `e`, the operation is as it
was (no response allocated), the context holds no image, the identity record
is unchanged, and the store has seen exactly one more call when an image was
held, its release, and none otherwise; if the store's live handles were those
of the context, none is live afterwards. -/
theorem C7_size_request_load_failure (env : Env) (w : World) (stage : u8)
    (resp : Option (List u8)) (e : Errno)
    (hload : env.request_firmware (firmware_name w.intf stage) = Except.error e) :
    ∃ out : Outcome,
      gb_firmware_size_request env w ⟨[stage], resp⟩ = some out ∧
      out.ret = e.val ∧
      out.op = ⟨[stage], resp⟩ ∧
      out.world.firmware.fw = none ∧
      out.world.intf = w.intf ∧
      out.world.store.trace = w.store.trace ++ release_events w.firmware.fw ∧
      (w.store.live = held w → out.world.store.live = []) := by
  have he : e.val ≠ 0 := e.property
  refine ⟨⟨e.val, (download_firmware env w stage).2, ⟨[stage], resp⟩⟩, ?_, rfl, rfl, ?_, ?_, ?_, ?_⟩
  · simp only [gb_firmware_size_request, as_size_request,
      download_firmware_error env w stage e hload, he, ne_eq, not_false_eq_true, if_true]
  · rw [download_firmware_error env w stage e hload]
  · rw [download_firmware_error env w stage e hload]
  · rw [download_firmware_error env w stage e hload]
    exact release_firmware_trace _ _
  · intro hlive
    rw [download_firmware_error env w stage e hload]
    rcases w with ⟨⟨_ | fw⟩, intf, ⟨live, trace⟩⟩
    · simpa [held, release_firmware] using hlive
    · simp only [held] at hlive
      subst hlive
      simp [release_firmware]

/-- C7, on the scenario: the store does not know the name for stage 2, and
the size request returns the store's `-2`, releasing the held image. -/
theorem C7_size_request_load_failure_witness :
    (∃ out : Outcome,
      gb_firmware_size_request env_ok w_img10 ⟨[2], none⟩ = some out ∧
      out.ret = -2 ∧
      out.op = ⟨[2], none⟩ ∧
      out.world.firmware.fw = none ∧
      out.world.intf = w_img10.intf ∧
      out.world.store.trace = w_img10.store.trace ++ release_events w_img10.firmware.fw ∧
      (w_img10.store.live = held w_img10 → out.world.store.live = [])) ∧
    gb_firmware_size_request env_ok w_img10 ⟨[2], none⟩ =
      some ⟨-2, ⟨⟨none⟩, intf0, ⟨[], [StoreEvent.load 1, StoreEvent.release 1]⟩⟩,
        ⟨[2], none⟩⟩ :=
  ⟨C7_size_request_load_failure env_ok w_img10 2 none ⟨-2, by decide⟩ rfl, by decide⟩

/-- C8. Size request, allocation failure: for every context and every 1-byte
size request whose load succeeds with the image `fw`, if the response cannot
be allocated then `gb_firmware_size_request` returns `-ENOMEM`, the
operation is as it was, the context holds no image, and the store has seen
the release of the old image (if one was held), the load of `fw` and then
exactly one release of `fw`; if the store's live handles were those of the
context, none is live afterwards. -/
theorem C8_size_request_alloc_failure (env : Env) (w : World) (stage : u8)
    (resp : Option (List u8)) (fw : firmware)
    (hload : env.request_firmware (firmware_name w.intf stage) = Except.ok fw)
    (halloc : env.response_alloc sizeof_size_response = false) :
    ∃ out : Outcome,
      gb_firmware_size_request env w ⟨[stage], resp⟩ = some out ∧
      out.ret = -ENOMEM ∧
      out.op = ⟨[stage], resp⟩ ∧
      out.world.firmware.fw = none ∧
      out.world.intf = w.intf ∧
      out.world.store.trace =
        w.store.trace ++ release_events w.firmware.fw ++
          [StoreEvent.load fw.handle, StoreEvent.release fw.handle] ∧
      (w.store.live = held w → out.world.store.live = []) := by
  refine ⟨⟨-ENOMEM, free_firmware (download_firmware env w stage).2, ⟨[stage], resp⟩⟩,
    ?_, rfl, rfl, rfl, ?_, ?_, ?_⟩
  · simp only [gb_firmware_size_request, as_size_request,
      download_firmware_ok env w stage fw hload, gb_operation_response_alloc, halloc]
    simp
  · rw [download_firmware_ok env w stage fw hload]
    rfl
  · rw [download_firmware_ok env w stage fw hload]
    simp [free_firmware, release_firmware_some]
  · intro hlive
    rw [download_firmware_ok env w stage fw hload]
    simp only [free_firmware, release_firmware_some, List.erase_cons_head]
    rcases w with ⟨⟨_ | old⟩, intf, ⟨live, trace⟩⟩
    · simpa [held, release_firmware] using hlive
    · simp only [held] at hlive
      subst hlive
      simp [release_firmware]

/-- C8, on the scenario: with no memory for the response the size request
returns `-ENOMEM` and the freshly loaded image is released again. -/
theorem C8_size_request_alloc_failure_witness :
    (∃ out : Outcome,
      gb_firmware_size_request env_nomem w_img3 ⟨[1], none⟩ = some out ∧
      out.ret = -ENOMEM ∧
      out.op = ⟨[1], none⟩ ∧
      out.world.firmware.fw = none ∧
      out.world.intf = w_img3.intf ∧
      out.world.store.trace =
        w_img3.store.trace ++ release_events w_img3.firmware.fw ++
          [StoreEvent.load img10.handle, StoreEvent.release img10.handle] ∧
      (w_img3.store.live = held w_img3 → out.world.store.live = [])) ∧
    gb_firmware_size_request env_nomem w_img3 ⟨[1], none⟩ =
      some ⟨-12, ⟨⟨none⟩, intf0, ⟨[], [StoreEvent.load 2, StoreEvent.release 2,
        StoreEvent.load 1, StoreEvent.release 1]⟩⟩, ⟨[1], none⟩⟩ :=
  ⟨C8_size_request_alloc_failure env_nomem w_img3 1 none img10 rfl rfl, by decide⟩

/-! ## Payload sizes and the boot status -/

/-- C9. Payload-size validation: for each of the three handlers, a request
whose payload size differs from the fixed size of its struct (1, 8 and 1
bytes) is refused with `-EINVAL`, and the state is exactly as before: the
context and its held image, the identity record, the store (no load, no
release) and the operation (no response allocated). -/
theorem C9_payload_size_validation (k : greybus_protocols) (env : Env) (w : World)
    (op : gb_operation) :
    (op.request.length ≠ sizeof_size_request →
      gb_firmware_size_request env w op = some ⟨-EINVAL, w, op⟩) ∧
    (op.request.length ≠ sizeof_get_firmware_request →
      gb_firmware_get_firmware env w op = some ⟨-EINVAL, w, op⟩) ∧
    (op.request.length ≠ sizeof_ready_to_boot_request →
      gb_firmware_ready_to_boot k w op = some ⟨-EINVAL, w, op⟩) := by
  refine ⟨?_, ?_, ?_⟩
  · intro h
    have hn := (as_size_request_eq_none op.request).2 h
    simp only [gb_firmware_size_request, hn]
  · intro h
    have hn := (as_get_firmware_request_eq_none op.request).2 h
    simp only [gb_firmware_get_firmware, hn]
  · intro h
    have hn := (as_ready_to_boot_request_eq_none op.request).2 h
    simp only [gb_firmware_ready_to_boot, hn]

/-- C9, on the scenario: with the ten-byte image held, a 2-byte size request,
a 7-byte get-chunk request and an empty ready-to-boot report are refused and
the image stays held, unreleased. -/
theorem C9_payload_size_validation_witness :
    sizeof_size_request = 1 ∧ sizeof_get_firmware_request = 8 ∧
    sizeof_ready_to_boot_request = 1 ∧
    gb_firmware_size_request env_ok w_img10 ⟨[1, 0], none⟩ =
      some ⟨-EINVAL, w_img10, ⟨[1, 0], none⟩⟩ ∧
    gb_firmware_get_firmware env_ok w_img10 ⟨[3, 0, 0, 0, 4, 0, 0], none⟩ =
      some ⟨-EINVAL, w_img10, ⟨[3, 0, 0, 0, 4, 0, 0], none⟩⟩ ∧
    gb_firmware_ready_to_boot k0 w_img10 ⟨[], none⟩ =
      some ⟨-EINVAL, w_img10, ⟨[], none⟩⟩ :=
  ⟨rfl, rfl, rfl,
    (C9_payload_size_validation k0 env_ok w_img10 ⟨[1, 0], none⟩).1 (by decide),
    (C9_payload_size_validation k0 env_ok w_img10 ⟨[3, 0, 0, 0, 4, 0, 0], none⟩).2.1 (by decide),
    (C9_payload_size_validation k0 env_ok w_img10 ⟨[], none⟩).2.2 (by decide)⟩

/-- C10. Boot status: for every 1-byte ready-to-boot report,
`gb_firmware_ready_to_boot` returns `-EINVAL` when the status byte is
`GB_FIRMWARE_BOOT_STATUS_INVALID` and 0 for every other status byte, so it
fails if and only if the status is the invalid one; in both cases the
context, the held image, the store and the operation are as before (no
release, no response). -/
theorem C10_boot_status (k : greybus_protocols) (w : World) (status : u8)
    (resp : Option (List u8)) :
    ∃ out : Outcome,
      gb_firmware_ready_to_boot k w ⟨[status], resp⟩ = some out ∧
      out.world = w ∧
      out.op = ⟨[status], resp⟩ ∧
      (out.ret ≠ 0 ↔ status = k.GB_FIRMWARE_BOOT_STATUS_INVALID) ∧
      (status = k.GB_FIRMWARE_BOOT_STATUS_INVALID → out.ret = -EINVAL) ∧
      (status ≠ k.GB_FIRMWARE_BOOT_STATUS_INVALID → out.ret = 0) := by
  by_cases h : status = k.GB_FIRMWARE_BOOT_STATUS_INVALID
  · refine ⟨⟨-EINVAL, w, ⟨[status], resp⟩⟩, ?_, rfl, rfl, ?_, ?_, ?_⟩
    · simp only [gb_firmware_ready_to_boot, as_ready_to_boot_request, h, if_true]
    · simp [h, EINVAL]
    · intro _; rfl
    · intro hne; exact absurd h hne
  · refine ⟨⟨0, w, ⟨[status], resp⟩⟩, ?_, rfl, rfl, ?_, ?_, ?_⟩
    · simp only [gb_firmware_ready_to_boot, as_ready_to_boot_request, h, if_false]
    · simp [h]
    · intro he; exact absurd he h
    · intro _; rfl

/-- The boot status on the scenario, with the header's values: the invalid
status `0x00` fails, the insecure `0x01` and the secure `0x02` succeed, and
the image stays held. -/
theorem boot_status_examples :
    gb_firmware_ready_to_boot k0 w_img10 ⟨[0], none⟩ = some ⟨-22, w_img10, ⟨[0], none⟩⟩ ∧
    gb_firmware_ready_to_boot k0 w_img10 ⟨[1], none⟩ = some ⟨0, w_img10, ⟨[1], none⟩⟩ ∧
    gb_firmware_ready_to_boot k0 w_img10 ⟨[2], none⟩ = some ⟨0, w_img10, ⟨[2], none⟩⟩ := by
  decide

/-! ## Dispatch -/

/-- C11. Dispatch: with the three `case` labels pairwise distinct (as C
requires of a `switch`), `gb_firmware_request_recv` returns exactly what
the size-request handler returns for the size-request type, what the
get-chunk handler returns for the get-firmware type, and what the
ready-to-boot handler returns for the ready-to-boot type; for every other
type it returns `-EINVAL` and leaves the context, the held image, the
identity record, the store and the operation unchanged. -/
theorem C11_dispatch (k : greybus_protocols) (env : Env) (type : u8) (w : World)
    (op : gb_operation)
    (h12 : k.GB_FIRMWARE_TYPE_FIRMWARE_SIZE ≠ k.GB_FIRMWARE_TYPE_GET_FIRMWARE)
    (h13 : k.GB_FIRMWARE_TYPE_FIRMWARE_SIZE ≠ k.GB_FIRMWARE_TYPE_READY_TO_BOOT)
    (h23 : k.GB_FIRMWARE_TYPE_GET_FIRMWARE ≠ k.GB_FIRMWARE_TYPE_READY_TO_BOOT) :
    (type = k.GB_FIRMWARE_TYPE_FIRMWARE_SIZE →
      gb_firmware_request_recv k env type w op = gb_firmware_size_request env w op) ∧
    (type = k.GB_FIRMWARE_TYPE_GET_FIRMWARE →
      gb_firmware_request_recv k env type w op = gb_firmware_get_firmware env w op) ∧
    (type = k.GB_FIRMWARE_TYPE_READY_TO_BOOT →
      gb_firmware_request_recv k env type w op = gb_firmware_ready_to_boot k w op) ∧
    (type ≠ k.GB_FIRMWARE_TYPE_FIRMWARE_SIZE → type ≠ k.GB_FIRMWARE_TYPE_GET_FIRMWARE →
      type ≠ k.GB_FIRMWARE_TYPE_READY_TO_BOOT →
      gb_firmware_request_recv k env type w op = some ⟨-EINVAL, w, op⟩) := by
  refine ⟨?_, ?_, ?_, ?_⟩
  · intro h
    simp only [gb_firmware_request_recv, h, if_true]
  · intro h
    subst h
    simp only [gb_firmware_request_recv, Ne.symm h12, if_false, if_true]
  · intro h
    subst h
    simp only [gb_firmware_request_recv, Ne.symm h13, Ne.symm h23, if_false, if_true]
  · intro h1 h2 h3
    simp only [gb_firmware_request_recv, h1, h2, h3, if_false]

/-- C11, with the header's values: the types `0x02`, `0x03` and `0x04`
reach their handlers, and the AP-ready type `0x05` and the get-identifiers
type `0x06`, which only the driver sends, are refused with `-EINVAL`. -/
theorem C11_dispatch_witness :
    gb_firmware_request_recv k0 env_ok 0x02 w_none ⟨[1], none⟩ =
      gb_firmware_size_request env_ok w_none ⟨[1], none⟩ ∧
    gb_firmware_request_recv k0 env_ok 0x03 w_img10 ⟨[3, 0, 0, 0, 4, 0, 0, 0], none⟩ =
      gb_firmware_get_firmware env_ok w_img10 ⟨[3, 0, 0, 0, 4, 0, 0, 0], none⟩ ∧
    gb_firmware_request_recv k0 env_ok 0x04 w_img10 ⟨[1], none⟩ =
      gb_firmware_ready_to_boot k0 w_img10 ⟨[1], none⟩ ∧
    gb_firmware_request_recv k0 env_ok k0.GB_FIRMWARE_TYPE_AP_READY w_img10 ⟨[], none⟩ =
      some ⟨-EINVAL, w_img10, ⟨[], none⟩⟩ ∧
    gb_firmware_request_recv k0 env_ok k0.GB_FIRMWARE_TYPE_GET_VID_PID w_img10 ⟨[], none⟩ =
      some ⟨-EINVAL, w_img10, ⟨[], none⟩⟩ :=
  ⟨(C11_dispatch k0 env_ok 0x02 w_none ⟨[1], none⟩ (by decide) (by decide) (by decide)).1 rfl,
    (C11_dispatch k0 env_ok 0x03 w_img10 ⟨[3, 0, 0, 0, 4, 0, 0, 0], none⟩
      (by decide) (by decide) (by decide)).2.1 rfl,
    (C11_dispatch k0 env_ok 0x04 w_img10 ⟨[1], none⟩
      (by decide) (by decide) (by decide)).2.2.1 rfl,
    (C11_dispatch k0 env_ok k0.GB_FIRMWARE_TYPE_AP_READY w_img10 ⟨[], none⟩
      (by decide) (by decide) (by decide)).2.2.2 (by decide) (by decide) (by decide),
    (C11_dispatch k0 env_ok k0.GB_FIRMWARE_TYPE_GET_VID_PID w_img10 ⟨[], none⟩
      (by decide) (by decide) (by decide)).2.2.2 (by decide) (by decide) (by decide)⟩

/-! ## The identity quirk -/

/-- Outside the quirk condition the resolver changes nothing. -/
theorem fixup_skip (k : greybus_protocols) (r : Remote) (c : gb_connection)
    (h : ¬ quirk k c.intf) : firmware_es2_fixup_vid_pid k r c = c := by
  have h1 : c.intf.ddbl1_manufacturer_id ≠ k.ES2_DDBL1_MFR_ID ∨
      c.intf.ddbl1_product_id ≠ k.ES2_DDBL1_PROD_ID ∨
      c.intf.vendor_id ≠ 0 ∨ c.intf.product_id ≠ 0 := by
    unfold quirk at h
    by_contra hc
    simp only [not_or, ne_eq, not_not] at hc
    exact h hc
  simp only [firmware_es2_fixup_vid_pid, h1, if_true]

/-- Under the quirk condition the test of the resolver falls through. -/
theorem quirk_test (k : greybus_protocols) (intf : gb_interface) (h : quirk k intf) :
    ¬ (intf.ddbl1_manufacturer_id ≠ k.ES2_DDBL1_MFR_ID ∨
      intf.ddbl1_product_id ≠ k.ES2_DDBL1_PROD_ID ∨
      intf.vendor_id ≠ 0 ∨ intf.product_id ≠ 0) := by
  obtain ⟨h1, h2, h3, h4⟩ := h
  simp [h1, h2, h3, h4]

/-- Under the quirk condition, a query that is answered sets the two ids. -/
theorem fixup_answered (k : greybus_protocols) (r : Remote) (c : gb_connection)
    (h : quirk k c.intf) (response : Buffer sizeof_get_vid_pid_response)
    (hr : r.sync k.GB_FIRMWARE_TYPE_GET_VID_PID [] sizeof_get_vid_pid_response =
      Except.ok response) :
    firmware_es2_fixup_vid_pid k r c =
      { c with
        sent := c.sent ++ [⟨k.GB_FIRMWARE_TYPE_GET_VID_PID, [], sizeof_get_vid_pid_response⟩]
        intf := { c.intf with
          vendor_id := le32_field (response_vendor_id response)
          product_id := le32_field (response_product_id response) } } := by
  simp only [firmware_es2_fixup_vid_pid, quirk_test k c.intf h, if_false, gb_operation_sync, hr]

/-- Under the quirk condition, a query that fails only leaves its record. -/
theorem fixup_failed (k : greybus_protocols) (r : Remote) (c : gb_connection)
    (h : quirk k c.intf) (e : Errno)
    (hr : r.sync k.GB_FIRMWARE_TYPE_GET_VID_PID [] sizeof_get_vid_pid_response =
      Except.error e) :
    firmware_es2_fixup_vid_pid k r c =
      { c with
        sent := c.sent ++
          [⟨k.GB_FIRMWARE_TYPE_GET_VID_PID, [], sizeof_get_vid_pid_response⟩] } := by
  simp only [firmware_es2_fixup_vid_pid, quirk_test k c.intf h, if_false, gb_operation_sync, hr]

/-- The fields of a response given by its eight bytes. -/
theorem response_fields (response : Buffer sizeof_get_vid_pid_response)
    (v0 v1 v2 v3 p0 p1 p2 p3 : u8) (h : response.val = [v0, v1, v2, v3, p0, p1, p2, p3]) :
    le32_field (response_vendor_id response) = le32_to_cpu v0 v1 v2 v3 ∧
    le32_field (response_product_id response) = le32_to_cpu p0 p1 p2 p3 := by
  rcases response with ⟨l, hl⟩
  simp only [] at h
  subst h
  exact ⟨rfl, rfl⟩

/-- What the resolver never touches: the context pointer, the context and the
two bridge ids. -/
theorem fixup_frame (k : greybus_protocols) (r : Remote) (c : gb_connection) :
    (firmware_es2_fixup_vid_pid k r c).private_ = c.private_ ∧
    (firmware_es2_fixup_vid_pid k r c).context = c.context ∧
    (firmware_es2_fixup_vid_pid k r c).intf.ddbl1_manufacturer_id =
      c.intf.ddbl1_manufacturer_id ∧
    (firmware_es2_fixup_vid_pid k r c).intf.ddbl1_product_id = c.intf.ddbl1_product_id := by
  by_cases h : quirk k c.intf
  · cases hr : r.sync k.GB_FIRMWARE_TYPE_GET_VID_PID [] sizeof_get_vid_pid_response with
    | error e => rw [fixup_failed k r c h e hr]; exact ⟨rfl, rfl, rfl, rfl⟩
    | ok response => rw [fixup_answered k r c h response hr]; exact ⟨rfl, rfl, rfl, rfl⟩
  · rw [fixup_skip k r c h]; exact ⟨rfl, rfl, rfl, rfl⟩

/-- The calls the resolver makes: one query under the quirk condition, none
otherwise. -/
theorem fixup_sent (k : greybus_protocols) (r : Remote) (c : gb_connection) :
    (firmware_es2_fixup_vid_pid k r c).sent =
      c.sent ++ (if quirk k c.intf then
        [⟨k.GB_FIRMWARE_TYPE_GET_VID_PID, [], sizeof_get_vid_pid_response⟩] else []) := by
  by_cases h : quirk k c.intf
  · cases hr : r.sync k.GB_FIRMWARE_TYPE_GET_VID_PID [] sizeof_get_vid_pid_response with
    | error e => rw [fixup_failed k r c h e hr]; simp only [h, if_true]
    | ok response => rw [fixup_answered k r c h response hr]; simp only [h, if_true]
  · rw [fixup_skip k r c h]; simp only [h, if_false, List.append_nil]

/-- C12. Quirk gating: for every identity record in which the bridge
manufacturer id differs from the ES2 manufacturer id, or the bridge product
id differs from the ES2 product id, or the vendor id is non-zero, or the
product id is non-zero, `firmware_es2_fixup_vid_pid` makes no call on the
connection and leaves the identity record, and everything else, unchanged,
whatever the remote side would answer. -/
theorem C12_quirk_gating (k : greybus_protocols) (r : Remote) (c : gb_connection)
    (h : c.intf.ddbl1_manufacturer_id ≠ k.ES2_DDBL1_MFR_ID ∨
      c.intf.ddbl1_product_id ≠ k.ES2_DDBL1_PROD_ID ∨
      c.intf.vendor_id ≠ 0 ∨ c.intf.product_id ≠ 0) :
    (firmware_es2_fixup_vid_pid k r c).sent = c.sent ∧
    (firmware_es2_fixup_vid_pid k r c).intf = c.intf ∧
    firmware_es2_fixup_vid_pid k r c = c := by
  have hq : ¬ quirk k c.intf := by
    intro hq
    exact quirk_test k c.intf hq h
  rw [fixup_skip k r c hq]
  exact ⟨rfl, rfl, rfl⟩

/-- C12, on the scenario: the identity record with all four ids set is left
alone although the remote side would answer the query. -/
theorem C12_quirk_gating_witness :
    (firmware_es2_fixup_vid_pid k0 remote_ok conn0).sent = conn0.sent ∧
    (firmware_es2_fixup_vid_pid k0 remote_ok conn0).intf = conn0.intf ∧
    firmware_es2_fixup_vid_pid k0 remote_ok conn0 = conn0 :=
  C12_quirk_gating k0 remote_ok conn0 (Or.inl (by decide))

/-- C13. Quirk action: for every identity record with the ES2 manufacturer
id, the ES2 bridge product id and vendor and product ids both zero,
`firmware_es2_fixup_vid_pid` makes exactly one call, a get-identifiers
request without payload asking for 8 bytes; if it is answered with the bytes
`v0 .. v3, p0 .. p3`, the vendor id becomes the little-endian value of
`v0 .. v3` and the product id that of `p0 .. p3`; if it fails, the identity
record is unchanged; the two bridge ids are unchanged in both cases. -/
theorem C13_quirk_action (k : greybus_protocols) (r : Remote) (c : gb_connection)
    (hq : quirk k c.intf) :
    (firmware_es2_fixup_vid_pid k r c).sent =
      c.sent ++ [⟨k.GB_FIRMWARE_TYPE_GET_VID_PID, [], sizeof_get_vid_pid_response⟩] ∧
    (firmware_es2_fixup_vid_pid k r c).intf.ddbl1_manufacturer_id =
      c.intf.ddbl1_manufacturer_id ∧
    (firmware_es2_fixup_vid_pid k r c).intf.ddbl1_product_id = c.intf.ddbl1_product_id ∧
    (∀ (response : Buffer sizeof_get_vid_pid_response) (v0 v1 v2 v3 p0 p1 p2 p3 : u8),
      r.sync k.GB_FIRMWARE_TYPE_GET_VID_PID [] sizeof_get_vid_pid_response =
        Except.ok response →
      response.val = [v0, v1, v2, v3, p0, p1, p2, p3] →
      (firmware_es2_fixup_vid_pid k r c).intf.vendor_id = le32_to_cpu v0 v1 v2 v3 ∧
      (firmware_es2_fixup_vid_pid k r c).intf.product_id = le32_to_cpu p0 p1 p2 p3) ∧
    (∀ e : Errno,
      r.sync k.GB_FIRMWARE_TYPE_GET_VID_PID [] sizeof_get_vid_pid_response =
        Except.error e →
      (firmware_es2_fixup_vid_pid k r c).intf = c.intf) := by
  refine ⟨?_, (fixup_frame k r c).2.2.1, (fixup_frame k r c).2.2.2, ?_, ?_⟩
  · rw [fixup_sent k r c]; simp only [hq, if_true]
  · intro response v0 v1 v2 v3 p0 p1 p2 p3 hr hv
    rw [fixup_answered k r c hq response hr]
    exact response_fields response v0 v1 v2 v3 p0 p1 p2 p3 hv
  · intro e hr
    rw [fixup_failed k r c hq e hr]

/-- C13, on an ES2 bridge with unknown ids: the answer
`33 33 33 33 44 44 44 44` sets the vendor id `0x33333333` and the product id
`0x44444444`, and a failing query leaves both zero. -/
theorem C13_quirk_action_witness :
    ((firmware_es2_fixup_vid_pid k0 remote_ok conn_es2).sent = [⟨0x06, [], 8⟩] ∧
      (firmware_es2_fixup_vid_pid k0 remote_ok conn_es2).intf =
        { intf_es2 with vendor_id := 0x33333333, product_id := 0x44444444 }) ∧
    ((firmware_es2_fixup_vid_pid k0 remote_down conn_es2).sent = [⟨0x06, [], 8⟩] ∧
      (firmware_es2_fixup_vid_pid k0 remote_down conn_es2).intf = intf_es2) :=
  ⟨⟨(C13_quirk_action k0 remote_ok conn_es2 (by decide)).1, by decide⟩,
    (C13_quirk_action k0 remote_down conn_es2 (by decide)).1,
    (C13_quirk_action k0 remote_down conn_es2 (by decide)).2.2.2.2 ⟨-110, by decide⟩ rfl⟩

/-! ## Connection setup -/

/-- Setup when the handshake is answered. -/
theorem init_answered (k : greybus_protocols) (r : Remote) (c : gb_connection) (b : Buffer 0)
    (hr : r.sync k.GB_FIRMWARE_TYPE_AP_READY [] 0 = Except.ok b) :
    gb_firmware_connection_init k true r c =
      (0, { firmware_es2_fixup_vid_pid k r
              { c with context := some { fw := none }, private_ := private_ptr.context } with
            sent := (firmware_es2_fixup_vid_pid k r
              { c with context := some { fw := none }, private_ := private_ptr.context }).sent ++
                [⟨k.GB_FIRMWARE_TYPE_AP_READY, [], 0⟩] }) := by
  simp only [gb_firmware_connection_init, gb_operation_sync, hr, Bool.not_true]
  rfl

/-- Setup when the handshake fails. -/
theorem init_failed (k : greybus_protocols) (r : Remote) (c : gb_connection) (e : Errno)
    (hr : r.sync k.GB_FIRMWARE_TYPE_AP_READY [] 0 = Except.error e) :
    gb_firmware_connection_init k true r c =
      (e.val, { firmware_es2_fixup_vid_pid k r
              { c with context := some { fw := none }, private_ := private_ptr.context } with
            sent := (firmware_es2_fixup_vid_pid k r
              { c with context := some { fw := none }, private_ := private_ptr.context }).sent ++
                [⟨k.GB_FIRMWARE_TYPE_AP_READY, [], 0⟩]
            context := none }) := by
  simp only [gb_firmware_connection_init, gb_operation_sync, hr, Bool.not_true]
  rfl

/-- A size request whose load and allocation succeed holds the loaded image
afterwards. -/
theorem size_request_loads (env : Env) (w : World) (stage : u8) (resp : Option (List u8))
    (fw : firmware)
    (hload : env.request_firmware (firmware_name w.intf stage) = Except.ok fw)
    (halloc : env.response_alloc sizeof_size_response = true) :
    ∃ out : Outcome,
      gb_firmware_size_request env w ⟨[stage], resp⟩ = some out ∧ out.ret = 0 ∧
      out.world.firmware.fw = some fw := by
  refine ⟨⟨0, (download_firmware env w stage).2, ⟨[stage], some (cpu_to_le32 fw.size)⟩⟩,
    ?_, rfl, ?_⟩
  · simp only [gb_firmware_size_request, as_size_request,
      download_firmware_ok env w stage fw hload, gb_operation_response_alloc, halloc]
    simp [store_bytes, sizeof_size_response, cpu_to_le32]
  · rw [download_firmware_ok env w stage fw hload]

/-- C15. Connection init outcome: when the context can be allocated,
`gb_firmware_connection_init` returns 0 if and only if the ready handshake
is answered, for every identity record and whatever becomes of the identifier
query; when the handshake fails with `e`, init returns exactly `e`, the
context has been freed and no handler state can be reached; when the
handshake is answered, the connection points at a context that holds no
image. -/
theorem C15_init_outcome (k : greybus_protocols) (r : Remote) (c : gb_connection) :
    ((gb_firmware_connection_init k true r c).1 = 0 ↔
      ∃ b, r.sync k.GB_FIRMWARE_TYPE_AP_READY [] 0 = Except.ok b) ∧
    (∀ e : Errno, r.sync k.GB_FIRMWARE_TYPE_AP_READY [] 0 = Except.error e →
      (gb_firmware_connection_init k true r c).1 = e.val ∧
      (gb_firmware_connection_init k true r c).2.context = none ∧
      ∀ s, handler_world (gb_firmware_connection_init k true r c).2 s = none) ∧
    (∀ b, r.sync k.GB_FIRMWARE_TYPE_AP_READY [] 0 = Except.ok b →
      (gb_firmware_connection_init k true r c).1 = 0 ∧
      (gb_firmware_connection_init k true r c).2.context = some { fw := none } ∧
      (gb_firmware_connection_init k true r c).2.private_ = private_ptr.context ∧
      ∀ s, handler_world (gb_firmware_connection_init k true r c).2 s =
        some ⟨{ fw := none }, (gb_firmware_connection_init k true r c).2.intf, s⟩) := by
  have hf := fixup_frame k r
    { c with context := some { fw := none }, private_ := private_ptr.context }
  have hfail : ∀ e : Errno, r.sync k.GB_FIRMWARE_TYPE_AP_READY [] 0 = Except.error e →
      (gb_firmware_connection_init k true r c).1 = e.val ∧
      (gb_firmware_connection_init k true r c).2.context = none ∧
      ∀ s, handler_world (gb_firmware_connection_init k true r c).2 s = none := by
    intro e hr
    rw [init_failed k r c e hr]
    refine ⟨rfl, rfl, ?_⟩
    intro s
    simp only [handler_world]
    split
    · rename_i hctx; cases hctx
    · rfl
  have hok : ∀ b, r.sync k.GB_FIRMWARE_TYPE_AP_READY [] 0 = Except.ok b →
      (gb_firmware_connection_init k true r c).1 = 0 ∧
      (gb_firmware_connection_init k true r c).2.context = some { fw := none } ∧
      (gb_firmware_connection_init k true r c).2.private_ = private_ptr.context ∧
      ∀ s, handler_world (gb_firmware_connection_init k true r c).2 s =
        some ⟨{ fw := none }, (gb_firmware_connection_init k true r c).2.intf, s⟩ := by
    intro b hr
    rw [init_answered k r c b hr]
    refine ⟨rfl, hf.2.1, hf.1, ?_⟩
    intro s
    simp only [handler_world, hf.1, hf.2.1]
  refine ⟨?_, hfail, hok⟩
  constructor
  · intro h0
    cases hr : r.sync k.GB_FIRMWARE_TYPE_AP_READY [] 0 with
    | ok b => exact ⟨b, rfl⟩
    | error e =>
      rw [(hfail e hr).1] at h0
      exact absurd h0 e.property
  · rintro ⟨b, hr⟩
    exact (hok b hr).1

/-- C15, on an ES2 bridge: init succeeds when the handshake is answered,
whether the identifier query was answered or failed, and returns the
handshake's `-110` with the context freed when the remote side is down. -/
theorem C15_init_outcome_witness :
    (gb_firmware_connection_init k0 true remote_ok conn_es2).1 = 0 ∧
    (gb_firmware_connection_init k0 true remote_no_ident conn_es2).1 = 0 ∧
    (gb_firmware_connection_init k0 true remote_ok conn0).1 = 0 ∧
    ((gb_firmware_connection_init k0 true remote_down conn_es2).1 = -110 ∧
      (gb_firmware_connection_init k0 true remote_down conn_es2).2.context = none ∧
      ∀ s, handler_world (gb_firmware_connection_init k0 true remote_down conn_es2).2 s =
        none) :=
  ⟨((C15_init_outcome k0 remote_ok conn_es2).2.2 ⟨[], rfl⟩ rfl).1,
    ((C15_init_outcome k0 remote_no_ident conn_es2).2.2 ⟨[], rfl⟩ rfl).1,
    ((C15_init_outcome k0 remote_ok conn0).2.2 ⟨[], rfl⟩ rfl).1,
    (C15_init_outcome k0 remote_down conn_es2).2.1 ⟨-110, by decide⟩ rfl⟩

/-- After a failed handshake `connection->private` still holds the address
of the freed context: only `gb_firmware_connection_exit` resets it. -/
theorem init_failed_private (k : greybus_protocols) (r : Remote) (c : gb_connection)
    (e : Errno) (hr : r.sync k.GB_FIRMWARE_TYPE_AP_READY [] 0 = Except.error e) :
    (gb_firmware_connection_init k true r c).2.private_ = private_ptr.context ∧
    (gb_firmware_connection_init k true r c).2.context = none := by
  rw [init_failed k r c e hr]
  exact ⟨(fixup_frame k r _).1, rfl⟩

/-- The calls made by setup, whatever their results. -/
theorem init_sent (k : greybus_protocols) (r : Remote) (c : gb_connection) :
    (gb_firmware_connection_init k true r c).2.sent =
      c.sent ++ (if quirk k c.intf then
        [⟨k.GB_FIRMWARE_TYPE_GET_VID_PID, [], sizeof_get_vid_pid_response⟩,
          ⟨k.GB_FIRMWARE_TYPE_AP_READY, [], 0⟩]
      else [⟨k.GB_FIRMWARE_TYPE_AP_READY, [], 0⟩]) := by
  have hs := fixup_sent k r
    { c with context := some { fw := none }, private_ := private_ptr.context }
  cases hr : r.sync k.GB_FIRMWARE_TYPE_AP_READY [] 0 with
  | ok b =>
    rw [init_answered k r c b hr]
    simp only [hs]
    split <;> simp
  | error e =>
    rw [init_failed k r c e hr]
    simp only [hs]
    split <;> simp

/-- C16. Init request ordering: for every identity record and every remote
side, the calls made by `gb_firmware_connection_init` once the context is
allocated are, in this order, the get-identifiers query and the ready
handshake under the quirk condition, and the ready handshake alone otherwise:
the query is made at most once and before the handshake, the handshake
exactly once, also when the query fails. When both are answered, the state
the handlers work on carries the resolved vendor and product ids, and a size
request loads the image under the name built from them. -/
theorem C16_init_ordering (k : greybus_protocols) (r : Remote) (c : gb_connection) :
    (quirk k c.intf →
      (gb_firmware_connection_init k true r c).2.sent =
        c.sent ++ [⟨k.GB_FIRMWARE_TYPE_GET_VID_PID, [], sizeof_get_vid_pid_response⟩,
          ⟨k.GB_FIRMWARE_TYPE_AP_READY, [], 0⟩]) ∧
    (¬ quirk k c.intf →
      (gb_firmware_connection_init k true r c).2.sent =
        c.sent ++ [⟨k.GB_FIRMWARE_TYPE_AP_READY, [], 0⟩]) ∧
    (quirk k c.intf →
      ∀ (response : Buffer sizeof_get_vid_pid_response) (b : Buffer 0),
        r.sync k.GB_FIRMWARE_TYPE_GET_VID_PID [] sizeof_get_vid_pid_response =
          Except.ok response →
        r.sync k.GB_FIRMWARE_TYPE_AP_READY [] 0 = Except.ok b →
        ∀ s : Store, ∃ w : World,
          handler_world (gb_firmware_connection_init k true r c).2 s = some w ∧
          w.firmware.fw = none ∧ w.store = s ∧
          w.intf = { c.intf with
            vendor_id := le32_field (response_vendor_id response)
            product_id := le32_field (response_product_id response) } ∧
          ∀ (env : Env) (stage : u8) (fw : firmware),
            env.request_firmware (firmware_name
              { c.intf with
                vendor_id := le32_field (response_vendor_id response)
                product_id := le32_field (response_product_id response) } stage) =
              Except.ok fw →
            env.response_alloc sizeof_size_response = true →
            ∃ out : Outcome,
              gb_firmware_size_request env w ⟨[stage], none⟩ = some out ∧ out.ret = 0 ∧
              out.world.firmware.fw = some fw) := by
  refine ⟨?_, ?_, ?_⟩
  · intro hq
    rw [init_sent k r c]; simp only [hq, if_true]
  · intro hq
    rw [init_sent k r c]; simp only [hq, if_false]
  · intro hq response b hresp hready s
    have hq1 : quirk k
        (gb_connection.mk private_ptr.context (some { fw := none }) c.intf c.sent).intf := hq
    refine ⟨⟨{ fw := none }, { c.intf with
        vendor_id := le32_field (response_vendor_id response)
        product_id := le32_field (response_product_id response) }, s⟩, ?_, rfl, rfl, rfl, ?_⟩
    · rw [init_answered k r c b hready]
      have hfix := fixup_answered k r
        (gb_connection.mk private_ptr.context (some { fw := none }) c.intf c.sent) hq1
        response hresp
      simp only [] at hfix
      simp only [hfix]
      rfl
    · intro env stage fw hload halloc
      exact size_request_loads env _ stage none fw hload halloc

/-- C16, on an ES2 bridge and on the scenario's identity record: the query
comes first and the handshake follows, also when the query fails; without
the quirk the handshake is the only call. -/
theorem C16_init_ordering_witness :
    (gb_firmware_connection_init k0 true remote_ok conn_es2).2.sent =
      [⟨0x06, [], 8⟩, ⟨0x05, [], 0⟩] ∧
    (gb_firmware_connection_init k0 true remote_no_ident conn_es2).2.sent =
      [⟨0x06, [], 8⟩, ⟨0x05, [], 0⟩] ∧
    (gb_firmware_connection_init k0 true remote_ok conn0).2.sent = [⟨0x05, [], 0⟩] ∧
    handler_world (gb_firmware_connection_init k0 true remote_ok conn_es2).2 ⟨[], []⟩ =
      some ⟨{ fw := none },
        { intf_es2 with vendor_id := 0x33333333, product_id := 0x44444444 }, ⟨[], []⟩⟩ :=
  ⟨(C16_init_ordering k0 remote_ok conn_es2).1 (by decide),
    (C16_init_ordering k0 remote_no_ident conn_es2).1 (by decide),
    (C16_init_ordering k0 remote_ok conn0).2.1 (by decide),
    by decide⟩

/-! ## Get-chunk requests keep no state -/

/-- A get-chunk request depends on the kernel only through the allocator. -/
theorem get_firmware_env (env env1 : Env) (w : World) (op : gb_operation)
    (halloc : ∀ n, env1.response_alloc n = env.response_alloc n) :
    gb_firmware_get_firmware env1 w op = gb_firmware_get_firmware env w op := by
  simp only [gb_firmware_get_firmware, gb_operation_response_alloc, halloc]

/-- Requests other than size requests leave the state as it is. -/
theorem run_no_size (k : greybus_protocols) (ds : List Dispatch) :
    ∀ w, (∀ d ∈ ds, d.type ≠ k.GB_FIRMWARE_TYPE_FIRMWARE_SIZE) → run k w ds = some w := by
  induction ds with
  | nil => intro w _; rfl
  | cons d ds ih =>
    intro w hds
    have hd : d.type ≠ k.GB_FIRMWARE_TYPE_FIRMWARE_SIZE := hds d (List.mem_cons_self d ds)
    have hrest : ∀ x ∈ ds, x.type ≠ k.GB_FIRMWARE_TYPE_FIRMWARE_SIZE :=
      fun x hx => hds x (List.mem_cons_of_mem d hx)
    have hstep : ∃ out, gb_firmware_request_recv k d.env d.type w d.op = some out ∧
        out.world = w := by
      simp only [gb_firmware_request_recv, hd, if_false]
      split
      · exact get_firmware_world d.env w d.op
      · split
        · obtain ⟨out, ho, hw, _⟩ := ready_to_boot_world k w d.op
          exact ⟨out, ho, hw⟩
        · exact ⟨_, rfl, rfl⟩
    obtain ⟨out, ho, hw⟩ := hstep
    simp only [run, ho, hw]
    exact ih w hrest

/-- C17, as stated, fails: the same get-chunk request on the same context
returns 0 with the bytes `[3, 4, 5, 6]` when the response can be allocated
and `-ENOMEM` without a response when it cannot, so the second of two
identical requests need not give the result of the first. -/
theorem C17_counterexample :
    gb_firmware_get_firmware env_ok w_img10 ⟨[3, 0, 0, 0, 4, 0, 0, 0], none⟩ =
      some ⟨0, w_img10, ⟨[3, 0, 0, 0, 4, 0, 0, 0], some [3, 4, 5, 6]⟩⟩ ∧
    gb_firmware_get_firmware env_nomem w_img10 ⟨[3, 0, 0, 0, 4, 0, 0, 0], none⟩ =
      some ⟨-ENOMEM, w_img10, ⟨[3, 0, 0, 0, 4, 0, 0, 0], none⟩⟩ ∧
    gb_firmware_get_firmware env_nomem w_img10 ⟨[3, 0, 0, 0, 4, 0, 0, 0], none⟩ ≠
      gb_firmware_get_firmware env_ok w_img10 ⟨[3, 0, 0, 0, 4, 0, 0, 0], none⟩ := by
  decide

/-- C17, amended. Get-chunk requests are stateless: every get-chunk request,
whether it succeeds or fails, returns and leaves the context (the held image,
its bytes and its length), the identity record and the store (no load, no
release) unchanged; hence the same request issued again right away, or after
any requests that are not size requests, gives the same result and the same
response bytes, provided the allocator answers alike on both occasions. -/
theorem C17_get_firmware_stateless (k : greybus_protocols) (env env1 : Env) (w : World)
    (op : gb_operation) (ds : List Dispatch)
    (hds : ∀ d ∈ ds, d.type ≠ k.GB_FIRMWARE_TYPE_FIRMWARE_SIZE)
    (halloc : ∀ n, env1.response_alloc n = env.response_alloc n) :
    ∃ out : Outcome,
      gb_firmware_get_firmware env w op = some out ∧
      out.world = w ∧
      gb_firmware_get_firmware env1 out.world op = some out ∧
      ∃ w1 : World,
        run k out.world ds = some w1 ∧ w1 = w ∧
        gb_firmware_get_firmware env1 w1 op = some out := by
  obtain ⟨out, ho, hw⟩ := get_firmware_world env w op
  have h1 : gb_firmware_get_firmware env1 w op = some out := by
    rw [get_firmware_env env env1 w op halloc, ho]
  refine ⟨out, ho, hw, ?_, w, ?_, rfl, h1⟩
  · rw [hw]; exact h1
  · rw [hw]; exact run_no_size k ds w hds

/-- C17 amended, on the scenario: the request (offset 3, length 4) gives
`[3, 4, 5, 6]` again after an out-of-range request and a ready-to-boot
report, the image still held. -/
theorem C17_get_firmware_stateless_witness :
    ∃ out : Outcome,
      gb_firmware_get_firmware env_ok w_img10 ⟨[3, 0, 0, 0, 4, 0, 0, 0], none⟩ = some out ∧
      out.world = w_img10 ∧
      gb_firmware_get_firmware env_ok out.world ⟨[3, 0, 0, 0, 4, 0, 0, 0], none⟩ = some out ∧
      ∃ w1 : World,
        run k0 out.world
          [⟨env_ok, 0x03, ⟨[8, 0, 0, 0, 5, 0, 0, 0], none⟩⟩, ⟨env_ok, 0x04, ⟨[1], none⟩⟩] =
            some w1 ∧
        w1 = w_img10 ∧
        gb_firmware_get_firmware env_ok w1 ⟨[3, 0, 0, 0, 4, 0, 0, 0], none⟩ = some out :=
  C17_get_firmware_stateless k0 env_ok env_ok w_img10 ⟨[3, 0, 0, 0, 4, 0, 0, 0], none⟩
    [⟨env_ok, 0x03, ⟨[8, 0, 0, 0, 5, 0, 0, 0], none⟩⟩, ⟨env_ok, 0x04, ⟨[1], none⟩⟩]
    (by decide) (fun _ => rfl)

/-! ## Chunked transfer -/

/-- An encoded in-range chunk request is answered with the requested slice. -/
theorem chunk_request_in_range (env : Env) (w : World) (fw : firmware) (offset n : Nat)
    (hheld : w.firmware.fw = some fw)
    (hsmall : fw.data.length < 2 ^ 32)
    (hoff : offset < fw.data.length)
    (hlen : n ≤ fw.data.length - offset)
    (halloc : ∀ m, env.response_alloc m = true) :
    gb_firmware_get_firmware env w (chunk_request offset n) =
      some ⟨0, w, ⟨cpu_to_le32 offset ++ cpu_to_le32 n,
        some ((fw.data.drop offset).take n)⟩⟩ := by
  obtain ⟨a0, a1, a2, a3, ha, hda⟩ := le32_to_cpu_cpu_to_le32 offset
  obtain ⟨b0, b1, b2, b3, hb, hdb⟩ := le32_to_cpu_cpu_to_le32 n
  rw [Nat.mod_eq_of_lt (by omega)] at hda hdb
  have h := get_firmware_in_range env w fw a0 a1 a2 a3 b0 b1 b2 b3 none hheld
    (by rw [hda]; exact hoff) (by rw [hda, hdb]; exact hlen) (halloc _)
  rw [hda, hdb] at h
  simp only [chunk_request, ha, hb]
  exact h

/-- Consecutive chunks from `offset` to the end of the image give the image
from `offset` on. -/
theorem fetch_chunks_from (env : Env) (w : World) (fw : firmware)
    (hheld : w.firmware.fw = some fw)
    (hsmall : fw.data.length < 2 ^ 32)
    (halloc : ∀ m, env.response_alloc m = true) (ns : List Nat) :
    ∀ offset, (∀ n ∈ ns, 0 < n) → offset + ns.sum = fw.data.length →
      fetch_chunks env w offset ns = some (fw.data.drop offset) := by
  induction ns with
  | nil =>
    intro offset _ hsum
    simp only [List.sum_nil, Nat.add_zero] at hsum
    simp [fetch_chunks, hsum]
  | cons n ns ih =>
    intro offset hpos hsum
    simp only [List.sum_cons] at hsum
    have hn : 0 < n := hpos n (List.mem_cons_self n ns)
    have hrest : ∀ x ∈ ns, 0 < x := fun x hx => hpos x (List.mem_cons_of_mem n hx)
    have hreq := chunk_request_in_range env w fw offset n hheld hsmall (by omega) (by omega)
      halloc
    have hih := ih (offset + n) hrest (by omega)
    simp only [fetch_chunks, hreq, hih, ne_eq, not_true_eq_false, if_false, Option.map_some']
    rw [← List.drop_drop, List.take_append_drop]

/-- C18. Chunked transfer reassembles the image: for a held non-empty image
of length `L < 2 ^ 32`, an allocator that succeeds, and positive chunk
lengths summing to `L`, the get-chunk requests for consecutive chunks
starting at offset 0 all return 0 and their payloads, put one after the
other, are the image; in particular the single request with offset 0 and, as
length, the four bytes a size response reports for this image returns the
whole image. -/
theorem C18_chunked_transfer (env : Env) (w : World) (fw : firmware) (ns : List Nat)
    (hheld : w.firmware.fw = some fw)
    (hne : 0 < fw.size)
    (hsmall : fw.size < 2 ^ 32)
    (hpos : ∀ n ∈ ns, 0 < n)
    (hsum : ns.sum = fw.size)
    (halloc : ∀ m, env.response_alloc m = true) :
    fetch_chunks env w 0 ns = some fw.data ∧
    ∀ (b0 b1 b2 b3 : u8) (resp : Option (List u8)),
      le32_to_cpu b0 b1 b2 b3 = fw.size % 2 ^ 32 →
      gb_firmware_get_firmware env w ⟨[0, 0, 0, 0, b0, b1, b2, b3], resp⟩ =
        some ⟨0, w, ⟨[0, 0, 0, 0, b0, b1, b2, b3], some fw.data⟩⟩ := by
  unfold firmware.size at hne hsmall hsum
  constructor
  · have h := fetch_chunks_from env w fw hheld hsmall halloc ns 0 hpos (by omega)
    simpa using h
  · intro b0 b1 b2 b3 resp hsize
    rw [firmware.size, Nat.mod_eq_of_lt hsmall] at hsize
    have hz : le32_to_cpu 0 0 0 0 = 0 := rfl
    have h := get_firmware_in_range env w fw 0 0 0 0 b0 b1 b2 b3 resp hheld
      (by rw [hz]; exact hne) (by rw [hz, hsize]; exact Nat.le_refl _) (halloc _)
    rw [hz, hsize] at h
    simpa using h

/-- C18, on the scenario: the ten-byte image fetched in chunks of 3, 4, 1
and 2 bytes, and in one request for the 10 bytes the size response
reports. -/
theorem C18_chunked_transfer_witness :
    fetch_chunks env_ok w_img10 0 [3, 4, 1, 2] = some img10.data ∧
    ∀ (b0 b1 b2 b3 : u8) (resp : Option (List u8)),
      le32_to_cpu b0 b1 b2 b3 = img10.size % 2 ^ 32 →
      gb_firmware_get_firmware env_ok w_img10 ⟨[0, 0, 0, 0, b0, b1, b2, b3], resp⟩ =
        some ⟨0, w_img10, ⟨[0, 0, 0, 0, b0, b1, b2, b3], some img10.data⟩⟩ :=
  C18_chunked_transfer env_ok w_img10 img10 [3, 4, 1, 2] rfl (by decide) (by decide)
    (by decide) (by decide) (fun _ => rfl)

/-! ## The image name -/

/-- The digit characters of `Nat.toDigits` are the specification's. -/
theorem digitChar_eq : ∀ d, d < 16 → Nat.digitChar d = spec_hex_digit d := by
  decide

/-- Distinct digit values have distinct characters. -/
theorem spec_hex_digit_inj :
    ∀ a, a < 16 → ∀ b, b < 16 → spec_hex_digit a = spec_hex_digit b → a = b := by
  decide

/-- The digits are put in front of the accumulator. -/
theorem toDigitsCore_acc (fuel : Nat) : ∀ (n : Nat) (acc : List Char),
    Nat.toDigitsCore 16 fuel n acc = Nat.toDigitsCore 16 fuel n [] ++ acc := by
  induction fuel with
  | zero => intro n acc; simp [Nat.toDigitsCore]
  | succ f ih =>
    intro n acc
    simp only [Nat.toDigitsCore]
    split
    · simp
    · rw [ih (n / 16) (_ :: acc), ih (n / 16) [_]]
      simp

/-- Zero is rendered as zeros only. -/
theorem spec_hex_zero (w : Nat) : spec_hex w 0 = List.replicate w '0' := by
  induction w with
  | zero => rfl
  | succ w ih =>
    simp only [spec_hex, Nat.zero_div, ih, Nat.zero_mod]
    rw [List.replicate_succ']
    rfl

/-- The fixed-width rendering has the width asked for. -/
theorem spec_hex_length (w : Nat) : ∀ n, (spec_hex w n).length = w := by
  induction w with
  | zero => intro n; rfl
  | succ w ih => intro n; simp [spec_hex, ih]

/-- With enough fuel, the digits of a value below `16 ^ (w + 1)`, padded with
zeros to `w + 1` characters, are its fixed-width rendering. -/
theorem toDigitsCore_pad (w : Nat) : ∀ (n fuel : Nat), n < 16 ^ (w + 1) → n < fuel →
    (Nat.toDigitsCore 16 fuel n []).length ≤ w + 1 ∧
    List.replicate (w + 1 - (Nat.toDigitsCore 16 fuel n []).length) '0' ++
      Nat.toDigitsCore 16 fuel n [] = spec_hex (w + 1) n := by
  induction w with
  | zero =>
    intro n fuel hn hf
    obtain ⟨f, rfl⟩ : ∃ f, fuel = f + 1 := ⟨fuel - 1, by omega⟩
    have h0 : n / 16 = 0 := by omega
    have hm : n % 16 = n := by omega
    simp only [Nat.toDigitsCore, h0, if_true]
    simp [spec_hex, digitChar_eq (n % 16) (by omega)]
  | succ w ih =>
    intro n fuel hn hf
    obtain ⟨f, rfl⟩ : ∃ f, fuel = f + 1 := ⟨fuel - 1, by omega⟩
    have hc := digitChar_eq (n % 16) (Nat.mod_lt _ (by decide))
    by_cases h0 : n / 16 = 0
    · simp only [Nat.toDigitsCore, h0, if_true]
      have hz : spec_hex_digit 0 = '0' := by decide
      simp [spec_hex, h0, spec_hex_zero, hc, List.replicate_succ', hz]
    · have hn1 : n / 16 < 16 ^ (w + 1) := by
        rw [Nat.div_lt_iff_lt_mul (by decide)]
        calc n < 16 ^ (w + 1 + 1) := hn
          _ = 16 ^ (w + 1) * 16 := by rw [pow_succ]
      have hf1 : n / 16 < f := by omega
      obtain ⟨hl, hp⟩ := ih (n / 16) f hn1 hf1
      simp only [Nat.toDigitsCore, h0, if_false]
      rw [toDigitsCore_acc f (n / 16) [_]]
      constructor
      · simp; omega
      · rw [show spec_hex (w + 1 + 1) n =
            spec_hex (w + 1) (n / 16) ++ [spec_hex_digit (n % 16)] from rfl, ← hp, hc]
        simp only [List.length_append, List.length_singleton, List.append_assoc]
        congr 2
        omega

/-- The conversion `%0<w>x` of a value below `16 ^ w` is its fixed-width
rendering. -/
theorem fmt_0x_eq (w n : Nat) (hw : 0 < w) (hn : n < 16 ^ w) : fmt_0x w n = spec_hex w n := by
  obtain ⟨v, rfl⟩ : ∃ v, w = v + 1 := ⟨w - 1, by omega⟩
  exact (toDigitsCore_pad v n (n + 1) hn (Nat.lt_succ_self n)).2

/-- The fixed-width rendering is injective on the values below `16 ^ w`. -/
theorem spec_hex_inj (w : Nat) :
    ∀ n m, n < 16 ^ w → m < 16 ^ w → spec_hex w n = spec_hex w m → n = m := by
  induction w with
  | zero => intro n m hn hm _; simp at hn hm; omega
  | succ w ih =>
    intro n m hn hm h
    simp only [spec_hex] at h
    have hl : [spec_hex_digit (n % 16)].length = [spec_hex_digit (m % 16)].length := rfl
    obtain ⟨h1, h2⟩ := List.append_inj' h hl
    have hn1 : n / 16 < 16 ^ w := by
      rw [Nat.div_lt_iff_lt_mul (by decide)]; rw [pow_succ] at hn; exact hn
    have hm1 : m / 16 < 16 ^ w := by
      rw [Nat.div_lt_iff_lt_mul (by decide)]; rw [pow_succ] at hm; exact hm
    have hq := ih _ _ hn1 hm1 h1
    have hr := spec_hex_digit_inj (n % 16) (Nat.mod_lt _ (by decide)) (m % 16)
      (Nat.mod_lt _ (by decide)) (by simpa using h2)
    omega

/-- For 32-bit ids the expansion of the format, before `snprintf` cuts it,
is the fixed-width rendering of the five values between the fixed parts. -/
theorem expanded_eq (intf : gb_interface) (stage : u8) (h : is_u32 intf) :
    "ara_".data ++ fmt_0x 8 intf.ddbl1_manufacturer_id ++ "_".data ++
      fmt_0x 8 intf.ddbl1_product_id ++ "_".data ++
      fmt_0x 8 intf.vendor_id ++ "_".data ++
      fmt_0x 8 intf.product_id ++ "_".data ++
      fmt_0x 2 stage.val ++ ".tftf".data =
    "ara_".data ++ spec_hex 8 intf.ddbl1_manufacturer_id ++ "_".data ++
      spec_hex 8 intf.ddbl1_product_id ++ "_".data ++
      spec_hex 8 intf.vendor_id ++ "_".data ++
      spec_hex 8 intf.product_id ++ "_".data ++
      spec_hex 2 stage.val ++ ".tftf".data := by
  obtain ⟨h1, h2, h3, h4⟩ := h
  have hs : stage.val < 16 ^ 2 := stage.isLt
  have e : (16 : Nat) ^ 8 = 2 ^ 32 := by norm_num
  rw [fmt_0x_eq 8 _ (by decide) (by rw [e]; exact h1),
    fmt_0x_eq 8 _ (by decide) (by rw [e]; exact h2),
    fmt_0x_eq 8 _ (by decide) (by rw [e]; exact h3),
    fmt_0x_eq 8 _ (by decide) (by rw [e]; exact h4),
    fmt_0x_eq 2 _ (by decide) hs]

/-- The fixed-width expansion has 47 characters. -/
theorem spec_expanded_length (a b c d e : Nat) :
    ("ara_".data ++ spec_hex 8 a ++ "_".data ++ spec_hex 8 b ++ "_".data ++
      spec_hex 8 c ++ "_".data ++ spec_hex 8 d ++ "_".data ++
      spec_hex 2 e ++ ".tftf".data).length = 47 := by
  simp only [List.length_append, spec_hex_length]
  rfl

/-- For 32-bit ids the name is the whole fixed-width expansion. -/
theorem firmware_name_data (intf : gb_interface) (stage : u8) (h : is_u32 intf) :
    (firmware_name intf stage).data =
      "ara_".data ++ spec_hex 8 intf.ddbl1_manufacturer_id ++ "_".data ++
        spec_hex 8 intf.ddbl1_product_id ++ "_".data ++
        spec_hex 8 intf.vendor_id ++ "_".data ++
        spec_hex 8 intf.product_id ++ "_".data ++
        spec_hex 2 stage.val ++ ".tftf".data := by
  unfold firmware_name snprintf
  rw [expanded_eq intf stage h]
  exact List.take_of_length_le (by rw [spec_expanded_length])

/-- For 32-bit ids the name built by the driver is the specification's. -/
theorem firmware_name_eq_spec (intf : gb_interface) (stage : u8) (h : is_u32 intf) :
    firmware_name intf stage =
      spec_name intf.ddbl1_manufacturer_id intf.ddbl1_product_id intf.vendor_id
        intf.product_id stage.val := by
  apply String.ext
  rw [firmware_name_data intf stage h]
  simp only [spec_name, hex8, hex2, String.data_append]

/-- C14. Image name derivation: for all 32-bit manufacturer, bridge product,
vendor and product ids and every 8-bit stage, the name built by
`download_firmware` is `ara_` followed by the four ids in 8 lowercase
zero-padded hexadecimal digits and the stage in 2, separated by `_`, and
`.tftf`; it depends on these five values only. -/
theorem C14_image_name (intf : gb_interface) (stage : u8)
    (h1 : intf.ddbl1_manufacturer_id < 2 ^ 32) (h2 : intf.ddbl1_product_id < 2 ^ 32)
    (h3 : intf.vendor_id < 2 ^ 32) (h4 : intf.product_id < 2 ^ 32) :
    firmware_name intf stage =
      "ara_" ++ hex8 intf.ddbl1_manufacturer_id ++ "_" ++ hex8 intf.ddbl1_product_id ++ "_" ++
        hex8 intf.vendor_id ++ "_" ++ hex8 intf.product_id ++ "_" ++ hex2 stage.val ++
        ".tftf" ∧
    ∀ (intf1 : gb_interface) (stage1 : u8),
      intf1.ddbl1_manufacturer_id = intf.ddbl1_manufacturer_id →
      intf1.ddbl1_product_id = intf.ddbl1_product_id →
      intf1.vendor_id = intf.vendor_id →
      intf1.product_id = intf.product_id →
      stage1 = stage →
      firmware_name intf1 stage1 = firmware_name intf stage := by
  refine ⟨firmware_name_eq_spec intf stage ⟨h1, h2, h3, h4⟩, ?_⟩
  intro intf1 stage1 e1 e2 e3 e4 e5
  rcases intf with ⟨a, b, c, d⟩
  rcases intf1 with ⟨a1, b1, c1, d1⟩
  simp only [] at e1 e2 e3 e4
  subst e1 e2 e3 e4 e5
  rfl

/-- C14, on the scenario: the ids `0x11111111`, `0x22222222`, `0x33333333`,
`0x44444444` and the stage `0x01` give
`ara_11111111_22222222_33333333_44444444_01.tftf`. -/
theorem C14_image_name_witness :
    firmware_name intf0 1 =
      "ara_" ++ hex8 0x11111111 ++ "_" ++ hex8 0x22222222 ++ "_" ++ hex8 0x33333333 ++ "_" ++
        hex8 0x44444444 ++ "_" ++ hex2 1 ++ ".tftf" ∧
    firmware_name intf0 1 = "ara_11111111_22222222_33333333_44444444_01.tftf" ∧
    hex8 0x11111111 = "11111111" ∧ hex8 0x1a2b = "00001a2b" ∧ hex2 1 = "01" :=
  ⟨(C14_image_name intf0 1 (by decide) (by decide) (by decide) (by decide)).1,
    by decide, by decide, by decide, by decide⟩

/-- C19. The image name fits its buffer: for all 32-bit ids and every 8-bit
stage, the name has exactly 47 characters, 48 bytes with its terminator, which
is the size of `firmware_name`; `snprintf` cuts nothing off the expansion of
the format, and the name ends in `.tftf`. -/
theorem C19_name_fits (intf : gb_interface) (stage : u8)
    (h1 : intf.ddbl1_manufacturer_id < 2 ^ 32) (h2 : intf.ddbl1_product_id < 2 ^ 32)
    (h3 : intf.vendor_id < 2 ^ 32) (h4 : intf.product_id < 2 ^ 32) :
    (firmware_name intf stage).length = 47 ∧
    (firmware_name intf stage).length + 1 = 48 ∧
    firmware_name intf stage =
      String.mk ("ara_".data ++ fmt_0x 8 intf.ddbl1_manufacturer_id ++ "_".data ++
        fmt_0x 8 intf.ddbl1_product_id ++ "_".data ++
        fmt_0x 8 intf.vendor_id ++ "_".data ++
        fmt_0x 8 intf.product_id ++ "_".data ++
        fmt_0x 2 stage.val ++ ".tftf".data) ∧
    ".tftf".data <:+ (firmware_name intf stage).data := by
  have hu : is_u32 intf := ⟨h1, h2, h3, h4⟩
  have hd := firmware_name_data intf stage hu
  have hl : (firmware_name intf stage).length = 47 := by
    show (firmware_name intf stage).data.length = 47
    rw [hd, spec_expanded_length]
  refine ⟨hl, by rw [hl], ?_, ?_⟩
  · apply String.ext
    rw [hd, expanded_eq intf stage hu]
  · rw [hd]
    exact List.suffix_append _ _

/-- C19, on the scenario and on the smallest and largest values. -/
theorem C19_name_fits_witness :
    (firmware_name intf0 1).length = 47 ∧
    firmware_name ⟨0, 0, 0, 0⟩ 0 = "ara_00000000_00000000_00000000_00000000_00.tftf" ∧
    firmware_name ⟨0xffffffff, 0xffffffff, 0xffffffff, 0xffffffff⟩ 0xff =
      "ara_ffffffff_ffffffff_ffffffff_ffffffff_ff.tftf" :=
  ⟨(C19_name_fits intf0 1 (by decide) (by decide) (by decide) (by decide)).1,
    by decide, by decide⟩

/-- C20. Image name derivation is injective: for 32-bit ids and 8-bit
stages, two names are equal only when the four ids and the stage are, so
tuples that differ in any component have different names. -/
theorem C20_name_injective (intf1 intf2 : gb_interface) (stage1 stage2 : u8)
    (h1 : is_u32 intf1) (h2 : is_u32 intf2) :
    (firmware_name intf1 stage1 = firmware_name intf2 stage2 ↔
      intf1 = intf2 ∧ stage1 = stage2) ∧
    ((intf1.ddbl1_manufacturer_id ≠ intf2.ddbl1_manufacturer_id ∨
        intf1.ddbl1_product_id ≠ intf2.ddbl1_product_id ∨
        intf1.vendor_id ≠ intf2.vendor_id ∨ intf1.product_id ≠ intf2.product_id ∨
        stage1 ≠ stage2) →
      firmware_name intf1 stage1 ≠ firmware_name intf2 stage2) := by
  have hinj : firmware_name intf1 stage1 = firmware_name intf2 stage2 →
      intf1 = intf2 ∧ stage1 = stage2 := by
    intro h
    have hd : (firmware_name intf1 stage1).data = (firmware_name intf2 stage2).data := by
      rw [h]
    rw [firmware_name_data intf1 stage1 h1, firmware_name_data intf2 stage2 h2] at hd
    obtain ⟨hd, -⟩ := List.append_inj' hd rfl
    obtain ⟨hd, e5⟩ := List.append_inj' hd (by rw [spec_hex_length, spec_hex_length])
    obtain ⟨hd, -⟩ := List.append_inj' hd rfl
    obtain ⟨hd, e4⟩ := List.append_inj' hd (by rw [spec_hex_length, spec_hex_length])
    obtain ⟨hd, -⟩ := List.append_inj' hd rfl
    obtain ⟨hd, e3⟩ := List.append_inj' hd (by rw [spec_hex_length, spec_hex_length])
    obtain ⟨hd, -⟩ := List.append_inj' hd rfl
    obtain ⟨hd, e2⟩ := List.append_inj' hd (by rw [spec_hex_length, spec_hex_length])
    obtain ⟨hd, -⟩ := List.append_inj' hd rfl
    obtain ⟨-, e1⟩ := List.append_inj' hd (by rw [spec_hex_length, spec_hex_length])
    obtain ⟨a1, a2, a3, a4⟩ := h1
    obtain ⟨b1, b2, b3, b4⟩ := h2
    have e : (16 : Nat) ^ 8 = 2 ^ 32 := by norm_num
    have r1 := spec_hex_inj 8 _ _ (by rw [e]; exact a1) (by rw [e]; exact b1) e1
    have r2 := spec_hex_inj 8 _ _ (by rw [e]; exact a2) (by rw [e]; exact b2) e2
    have r3 := spec_hex_inj 8 _ _ (by rw [e]; exact a3) (by rw [e]; exact b3) e3
    have r4 := spec_hex_inj 8 _ _ (by rw [e]; exact a4) (by rw [e]; exact b4) e4
    have r5 := spec_hex_inj 2 _ _ stage1.isLt stage2.isLt e5
    rcases intf1 with ⟨x1, x2, x3, x4⟩
    rcases intf2 with ⟨y1, y2, y3, y4⟩
    simp only [] at r1 r2 r3 r4
    subst r1 r2 r3 r4
    exact ⟨rfl, Fin.ext r5⟩
  refine ⟨⟨hinj, ?_⟩, ?_⟩
  · rintro ⟨rfl, rfl⟩; rfl
  · intro hne heq
    obtain ⟨hi, hs⟩ := hinj heq
    subst hi hs
    simp at hne

/-- C20, on the scenario: changing the stage, or moving a digit from one id
to its neighbour, changes the name. -/
theorem C20_name_injective_witness :
    firmware_name intf0 1 ≠ firmware_name intf0 2 ∧
    firmware_name ⟨0x1, 0x10000000, 0, 0⟩ 1 ≠ firmware_name ⟨0x11, 0, 0, 0⟩ 1 :=
  ⟨(C20_name_injective intf0 intf0 1 2 (by decide) (by decide)).2
      (Or.inr (Or.inr (Or.inr (Or.inr (by decide))))),
    (C20_name_injective ⟨0x1, 0x10000000, 0, 0⟩ ⟨0x11, 0, 0, 0⟩ 1 1 (by decide) (by decide)).2
      (Or.inl (by decide))⟩

end Greybus
